import Mathlib

/-!
Shallow embedding of the Telegram reminder bot (repository
Exalarend/TelegramBotForCats) and proofs about the claims of its
specification.  Python floats carrying weights and delays are modelled as
rationals; the pseudo-random draw of the picker and the outcome of each
platform call of the sender are explicit parameters; the SQLite database is
modelled as explicit lists of rows.
-/

namespace CatBot

/-! ## Content picker: src/bot/notify/picker.py -/

structure ImageOpt where
  id : Nat
  ref : String
  ref_type : String
  weight : ℚ
deriving Repr, DecidableEq

structure TextOpt where
  id : Nat
  image_option_id : Option Nat
  text : String
  weight : ℚ
deriving Repr, DecidableEq

structure PickedContent where
  text : String
  image_ref : Option String
  image_ref_type : Option String
  image_option_id : Option Nat
deriving Repr, DecidableEq

/-- Total of the positive weights, as accumulated by the first loop of
`weighted_choice`. -/
def posTotal {α : Type} (wt : α → ℚ) (options : List α) : ℚ :=
  (options.map (fun o => if 0 < wt o then wt o else 0)).sum

/-- The cumulative-sum scan of `weighted_choice`: skip non-positive weights,
return the first option whose running total reaches the draw `r`. -/
def pickLoop {α : Type} (wt : α → ℚ) (r : ℚ) : List α → ℚ → Option α
  | [], _ => none
  | o :: rest, upto =>
    if wt o ≤ 0 then pickLoop wt r rest upto
    else if r ≤ upto + wt o then some o
    else pickLoop wt r rest (upto + wt o)

/-- `weighted_choice(options, weight_key)` from src/bot/notify/picker.py.
`r` is the value of `random.random() * total`. -/
def weighted_choice {α : Type} (wt : α → ℚ) (options : List α) (r : ℚ) : Option α :=
  match options with
  | [] => none
  | o0 :: _ =>
    if posTotal wt options ≤ 0 then some o0
    else
      match pickLoop wt r options 0 with
      | some o => some o
      | none => options.getLast?

/-- `_is_image_option_available`: file_id/url refs always available, path refs
only when the file exists (the filesystem is the `pathExists` parameter). -/
def is_image_option_available (pathExists : String → Bool) (ref : String) (ref_type : String) : Bool :=
  if ref = "" then false
  else if ref_type = "file_id" || ref_type = "url" then true
  else if ref_type = "path" then pathExists ref
  else true

/-- The text pool `pick_system_content` draws from, given the picked image id. -/
def candidateTexts (text_options : List TextOpt) (image_option_id : Option Nat) : List TextOpt :=
  let tied :=
    match image_option_id with
    | some i => text_options.filter (fun t : TextOpt => t.image_option_id == some i)
    | none => []
  if tied.isEmpty then
    let unattached := text_options.filter (fun t : TextOpt => t.image_option_id == none)
    if unattached.isEmpty then text_options else unattached
  else tied

/-- `pick_system_content` from src/bot/notify/picker.py; `rImg` and `rText`
are the two pseudo-random draws. -/
def pick_system_content (pathExists : String → Bool)
    (text_options : List TextOpt) (image_options : List ImageOpt)
    (rImg rText : ℚ) : PickedContent :=
  let images := image_options.filter (fun i => is_image_option_available pathExists i.ref i.ref_type)
  let picked_image := weighted_choice (fun i : ImageOpt => i.weight) images rImg
  let image_ref := picked_image.map (fun i => i.ref)
  let image_ref_type := picked_image.map (fun i => if i.ref_type = "" then "file_id" else i.ref_type)
  let image_option_id := picked_image.map (fun i => i.id)
  let cands := candidateTexts text_options image_option_id
  let picked_text := weighted_choice (fun t : TextOpt => t.weight) cands rText
  { text := (picked_text.map (fun t => t.text)).getD ""
    image_ref := image_ref
    image_ref_type := image_ref_type
    image_option_id := image_option_id }

/-! ## Scheduler arithmetic: src/bot/scheduler.py and src/bot/utils/retry.py -/

/-- Chained Python `or` on integers (0 is falsy). -/
def pyOrInt (a b : Int) : Int := if a = 0 then b else a

/-- `compute_retry_delay_s` from src/bot/utils/retry.py. -/
def compute_retry_delay_s (attempt : Int) : Int :=
  if attempt ≤ 1 then 60 else if attempt = 2 then 120 else 300

/-- `anchor_ts = int(last_sent or 0) or int(created_at or 0) or now` (the
rule dict stores a missing created_at_ts as 0). -/
def anchor_of (last_sent_at_ts : Option Int) (created_at_ts now_ts : Int) : Int :=
  pyOrInt (last_sent_at_ts.getD 0) (pyOrInt created_at_ts now_ts)

/-- `_compute_next_interval_run_dt` from src/bot/scheduler.py, as epoch
seconds. -/
def compute_next_interval_run_ts (interval_minutes : Int)
    (last_sent_at_ts : Option Int) (created_at_ts : Int) (now_ts : Int) : Int :=
  let interval_sec := interval_minutes * 60
  let anchor_ts := anchor_of last_sent_at_ts created_at_ts now_ts
  if interval_sec ≤ 0 then now_ts + 60
  else if now_ts < anchor_ts then anchor_ts + interval_sec
  else
    let delta := now_ts - anchor_ts
    let n := delta / interval_sec + 1
    anchor_ts + n * interval_sec

/-- The instant `_schedule_interval_run` arms its one-shot timer at:
the computed next interval run when `retry_attempt ≤ 0`, otherwise
now plus the retry delay. -/
def interval_run_at_ts (retry_attempt : Int) (interval_minutes : Int)
    (last_sent_at_ts : Option Int) (created_at_ts : Int) (now_ts : Int) : Int :=
  if retry_attempt ≤ 0 then
    compute_next_interval_run_ts interval_minutes last_sent_at_ts created_at_ts now_ts
  else now_ts + compute_retry_delay_s retry_attempt

/-! ## Notification body: the content part of send_rule_notification
(src/bot/scheduler.py, system rules) -/

/-- Python `str.strip()`, modelled over the character list so that it
evaluates by kernel reduction. -/
def py_strip (s : String) : String :=
  ⟨List.reverse (List.dropWhile Char.isWhitespace
    (List.reverse (List.dropWhile Char.isWhitespace s.data)))⟩

/-- Python truthiness of an optional string (None and the empty string are
falsy). -/
def optStrFalsy : Option String → Bool
  | none => true
  | some s => s = ""

/-- The message body `send_rule_notification` composes for a system rule:
the stripped picked text, except that when include_meta is off and the pick
yielded neither text nor image it falls back to the first text option. -/
def system_rule_body (include_meta : Bool) (picked : PickedContent)
    (text_options : List TextOpt) : String :=
  let text := py_strip picked.text
  if include_meta = false ∧ text = "" ∧ optStrFalsy picked.image_ref = true ∧ text_options ≠ [] then
    match text_options with
    | [] => text
    | t0 :: _ => py_strip t0.text
  else text

/-! ## Conversation/draft state store: src/bot/handlers/state.py -/

structure StoredDraft where
  chat_id : Option Int
  actor_user_id : Option Int
  expires_at_ts : Option Int
  stage : Option String
  prompt_message_id : Option Int
deriving Repr, DecidableEq

/-- `context.user_data`: the two per-user containers. -/
structure UserData where
  draft_rule : Option StoredDraft
  awaiting_photo : Option StoredDraft
deriving Repr, DecidableEq

/-- `is_expired`: an absent or non-positive expires_at_ts never expires. -/
def is_expired (now_ts : Int) (d : StoredDraft) : Bool :=
  let exp := d.expires_at_ts.getD 0
  decide (0 < exp) && decide (now_ts > exp)

/-- `clear_flow`: pops both containers. -/
def clear_flow (ud : UserData) : UserData := { draft_rule := none, awaiting_photo := none }

/-- `get_draft`: returns the draft and the (possibly mutated) session state. -/
def get_draft (now_ts : Int) (ud : UserData) (chat_id : Int)
    (actor_user_id : Option Int) : Option StoredDraft × UserData :=
  match ud.draft_rule with
  | none => (none, ud)
  | some d =>
    if d.chat_id.getD 0 ≠ chat_id then (none, clear_flow ud)
    else if is_expired now_ts d then (none, clear_flow ud)
    else
      match actor_user_id with
      | some a =>
        let a0 := d.actor_user_id.getD 0
        if a0 ≠ 0 ∧ a0 ≠ a then (none, ud) else (some d, ud)
      | none => (some d, ud)

/-- `get_awaiting_photo`: same checks, but only pops the awaiting container. -/
def get_awaiting_photo (now_ts : Int) (ud : UserData) (chat_id : Int)
    (actor_user_id : Option Int) : Option StoredDraft × UserData :=
  match ud.awaiting_photo with
  | none => (none, ud)
  | some d =>
    if d.chat_id.getD 0 ≠ chat_id then (none, { ud with awaiting_photo := none })
    else if is_expired now_ts d then (none, { ud with awaiting_photo := none })
    else
      match actor_user_id with
      | some a =>
        let a0 := d.actor_user_id.getD 0
        if a0 ≠ 0 ∧ a0 ≠ a then (none, ud) else (some d, ud)
      | none => (some d, ud)

/-! ## Sender retry loop: TelegramSender._call_with_retries
(src/bot/notify/sender.py) -/

/-- Outcome of one attempt of the wrapped platform call. -/
inductive CallOutcome : Type
  | ok : CallOutcome
  | rateLimit (retry_after : ℚ) : CallOutcome
  | network : CallOutcome
  | other : CallOutcome
deriving Repr, DecidableEq

/-- Trace of one run of the retry loop: how many attempts were made, the sleeps
performed in the rate-limit and network branches, and the exception finally
raised (none means the call returned normally). -/
structure RetryTrace where
  tries : Nat
  rl_sleeps : List ℚ
  net_sleeps : List ℚ
  outcome : Option CallOutcome
deriving Repr, DecidableEq

/-- The retry loop body.  `attempt` is 1-based; `remaining` is how many
attempts of the `range` are left (so `remaining = 0` means the `for` loop is
exhausted and the saved exception, if any, is raised). -/
def callLoop (script : Nat → CallOutcome) :
    Nat → Nat → ℚ → Option CallOutcome → List ℚ → List ℚ → RetryTrace
  | attempt, 0, _, lastExc, rl, net => ⟨attempt - 1, rl, net, lastExc⟩
  | attempt, remaining + 1, delay, _, rl, net =>
    match script attempt with
    | CallOutcome.ok => ⟨attempt, rl, net, none⟩
    | CallOutcome.rateLimit ra =>
        callLoop script (attempt + 1) remaining delay
          (some (CallOutcome.rateLimit ra)) (rl ++ [ra + 1]) net
    | CallOutcome.network =>
        if remaining = 0 then ⟨attempt, rl, net, some CallOutcome.network⟩
        else
          callLoop script (attempt + 1) remaining (min (delay * 2) 15)
            (some CallOutcome.network) rl (net ++ [delay])
    | CallOutcome.other => ⟨attempt, rl, net, some CallOutcome.other⟩

/-- `_call_with_retries` with `retry_attempts` attempts, the i-th attempt
resulting in `script i`. -/
def call_with_retries (retry_attempts : Nat) (script : Nat → CallOutcome) : RetryTrace :=
  callLoop script 1 retry_attempts 1 none [] []

/-- The expected network-backoff table: 1, 2, 4, 8, 15, 15, ... -/
def netBackoffTable (n : Nat) : List ℚ :=
  (List.range n).map (fun k => min ((2 : ℚ) ^ k) 15)

/-- An outcome the loop retries on (rate limit or network/timeout). -/
def retryable : CallOutcome → Prop
  | CallOutcome.rateLimit _ => True
  | CallOutcome.network => True
  | _ => False

instance : DecidablePred retryable := by
  intro o
  cases o <;> simp [retryable] <;> infer_instance

/-! ## Database model: src/bot/db/schema.py tables, src/bot/db/repo.py
operations and src/bot/system/sync.py reconciliation -/

structure ChatRow where
  chat_id : Int
  enabled : Int
  timezone : String
  image_file_id : Option String
  include_meta : Int
deriving Repr, DecidableEq

structure RuleRow where
  id : Nat
  chat_id : Int
  title : String
  kind : String
  days : Option String
  time_hhmm : Option String
  interval_minutes : Option Int
  created_at_ts : Int
  last_sent_at_ts : Option Int
  message_text : String
  image_file_id : Option String
  is_system : Int
  system_key : Option String
  text_probability : ℚ
  image_probability : ℚ
  enabled : Int
  user_customized : Int
  sort_order : Option Int
deriving Repr, DecidableEq

structure ImageOptRow where
  id : Nat
  rule_id : Nat
  ref : String
  ref_type : String
  weight : ℚ
deriving Repr, DecidableEq

structure TextOptRow where
  id : Nat
  rule_id : Nat
  image_option_id : Option Nat
  text : String
  weight : ℚ
deriving Repr, DecidableEq

structure Db where
  chats : List ChatRow
  rules : List RuleRow
  image_options : List ImageOptRow
  text_options : List TextOptRow
  next_rule_id : Nat
  next_image_option_id : Nat
  next_text_option_id : Nat
deriving Repr, DecidableEq

def find_chat (db : Db) (cid : Int) : Option ChatRow :=
  db.chats.find? (fun c => decide (c.chat_id = cid))

/-- `SELECT ... FROM rules WHERE chat_id = ? AND system_key = ?` (a NULL
system_key never matches). -/
def find_rule_by_key (db : Db) (cid : Int) (key : String) : Option RuleRow :=
  db.rules.find? (fun r => decide (r.chat_id = cid ∧ r.system_key = some key))

/-- `DELETE FROM rules WHERE <p>`, with the foreign-key cascade deleting the
affected rules' option rows. -/
def delete_rules_where (db : Db) (p : RuleRow → Bool) : Db :=
  let removed_ids := (db.rules.filter p).map (fun r => r.id)
  { db with
    rules := db.rules.filter (fun r => !(p r))
    image_options := db.image_options.filter (fun o : ImageOptRow => !(removed_ids.contains o.rule_id))
    text_options := db.text_options.filter (fun o : TextOptRow => !(removed_ids.contains o.rule_id)) }

/-- `_get_default_timezone`: the first chat row's timezone if truthy. -/
def default_timezone_of (db : Db) : String :=
  match db.chats.head? with
  | some c => if c.timezone ≠ "" then c.timezone else "Europe/Moscow"
  | none => "Europe/Moscow"

/-- `upsert_chat` (INSERT OR IGNORE). -/
def upsert_chat (db : Db) (cid : Int) : Db :=
  if (find_chat db cid).isSome then db
  else { db with chats := db.chats ++ [⟨cid, 1, default_timezone_of db, none, 1⟩] }

/-- `migrate_chat_id` from src/bot/db/repo.py. -/
def migrate_chat_id (db : Db) (old_chat_id new_chat_id : Int) : Db :=
  if old_chat_id = new_chat_id then db
  else
    match find_chat db old_chat_id with
    | none => db
    | some old_row =>
      let db1 :=
        if (find_chat db new_chat_id).isSome then
          { db with chats := db.chats.map (fun c : ChatRow =>
              if c.chat_id = new_chat_id then
                { c with enabled := old_row.enabled, timezone := old_row.timezone,
                         image_file_id := old_row.image_file_id,
                         include_meta := old_row.include_meta }
              else c) }
        else { db with chats := db.chats ++ [{ old_row with chat_id := new_chat_id }] }
      let keys := (db1.rules.filter (fun r : RuleRow => decide (r.chat_id = old_chat_id) && r.system_key.isSome)).filterMap (fun r => r.system_key)
      let db2 :=
        if keys.isEmpty then db1
        else
          delete_rules_where db1 (fun r => decide (r.chat_id = new_chat_id) &&
            (match r.system_key with
             | some k => keys.contains k
             | none => false))
      let db3 := { db2 with rules := db2.rules.map (fun r : RuleRow =>
          if r.chat_id = old_chat_id then { r with chat_id := new_chat_id } else r) }
      { db3 with chats := db3.chats.filter (fun c : ChatRow => !(decide (c.chat_id = old_chat_id))) }

/-- Insertion sort, used to model Python `sorted`. -/
def insertSorted (x : Int) : List Int → List Int
  | [] => [x]
  | y :: ys => if x ≤ y then x :: y :: ys else y :: insertSorted x ys

def sortInts : List Int → List Int
  | [] => []
  | x :: xs => insertSorted x (sortInts xs)

/-- `",".join(str(d) for d in sorted(set(days)))`. -/
def days_string (days : List Int) : String :=
  String.intercalate "," ((sortInts days.dedup).map toString)

/-- One entry of the `images` payload handed to the ensure operations. -/
structure ImagePayload where
  ref : String
  ref_type : String
  weight : ℚ
  texts : List (String × ℚ)
deriving Repr, DecidableEq

/-- The image option rows inserted for a payload list, ids starting at `i0`. -/
def new_image_rows (rid : Nat) (i0 : Nat) : List ImagePayload → List ImageOptRow
  | [] => []
  | img :: rest => ⟨i0, rid, img.ref, img.ref_type, img.weight⟩ :: new_image_rows rid (i0 + 1) rest

def new_text_rows_for (rid : Nat) (img_id : Nat) (t0 : Nat) : List (String × ℚ) → List TextOptRow
  | [] => []
  | tw :: rest => ⟨t0, rid, some img_id, tw.1, tw.2⟩ :: new_text_rows_for rid img_id (t0 + 1) rest

/-- The text option rows inserted for a payload list, image ids starting at
`i0` and text ids at `t0`. -/
def new_text_rows (rid : Nat) (i0 t0 : Nat) : List ImagePayload → List TextOptRow
  | [] => []
  | img :: rest =>
      new_text_rows_for rid i0 t0 img.texts ++
        new_text_rows rid (i0 + 1) (t0 + img.texts.length) rest

/-- The pool-insertion loop shared by both ensure operations: for each image
insert an image option row, then its attached text rows. -/
def insert_pools (db : Db) (rid : Nat) (images : List ImagePayload) : Db :=
  { db with
    image_options := db.image_options ++ new_image_rows rid db.next_image_option_id images
    text_options := db.text_options ++ new_text_rows rid db.next_image_option_id db.next_text_option_id images
    next_image_option_id := db.next_image_option_id + images.length
    next_text_option_id := db.next_text_option_id + (images.map (fun i => i.texts.length)).sum }

/-- `ensure_system_rule_weekly` from src/bot/db/repo.py. -/
def ensure_system_rule_weekly (db0 : Db) (chat_id : Int) (system_key : String)
    (title : String) (days : List Int) (time_hhmm : String)
    (images : List ImagePayload) (enabled_by_default : Bool) (sort_order : Int)
    (now_ts : Int) : Db × Nat :=
  let db := upsert_chat db0 chat_id
  let days_s := days_string days
  match find_rule_by_key db chat_id system_key with
  | some row =>
    let rid := row.id
    let db1 := { db with rules := db.rules.map (fun r : RuleRow =>
        if r.id = rid ∧ r.chat_id = chat_id then
          { r with title := title, text_probability := 1, image_probability := 1,
                   is_system := 1, sort_order := some sort_order }
        else r) }
    let db2 := { db1 with rules := db1.rules.map (fun r : RuleRow =>
        if r.id = rid ∧ r.chat_id = chat_id then { r with days := some days_s } else r) }
    let db3 :=
      if row.user_customized = 1 then db2
      else
        { db2 with rules := db2.rules.map (fun r : RuleRow =>
            if r.id = rid ∧ r.chat_id = chat_id then
              { r with time_hhmm := some time_hhmm,
                       enabled := if enabled_by_default then 1 else 0 }
            else r) }
    let db4 := { db3 with
        text_options := db3.text_options.filter (fun o : TextOptRow => !(decide (o.rule_id = rid)))
        image_options := db3.image_options.filter (fun o : ImageOptRow => !(decide (o.rule_id = rid))) }
    (insert_pools db4 rid images, rid)
  | none =>
    let rid := db.next_rule_id
    let new_rule : RuleRow :=
      { id := rid, chat_id := chat_id, title := title, kind := "weekly",
        days := some days_s, time_hhmm := some time_hhmm, interval_minutes := none,
        created_at_ts := now_ts, last_sent_at_ts := none, message_text := "",
        image_file_id := none, is_system := 1, system_key := some system_key,
        text_probability := 1, image_probability := 1,
        enabled := if enabled_by_default then 1 else 0,
        user_customized := 0, sort_order := some sort_order }
    let db1 := { db with rules := db.rules ++ [new_rule], next_rule_id := rid + 1 }
    (insert_pools db1 rid images, rid)

/-- `ensure_system_rule_interval` from src/bot/db/repo.py. -/
def ensure_system_rule_interval (db0 : Db) (chat_id : Int) (system_key : String)
    (title : String) (interval_minutes : Int) (images : List ImagePayload)
    (enabled_by_default : Bool) (sort_order : Int) (now_ts : Int) : Db × Nat :=
  let db := upsert_chat db0 chat_id
  match find_rule_by_key db chat_id system_key with
  | some row =>
    let rid := row.id
    let db1 := { db with rules := db.rules.map (fun r : RuleRow =>
        if r.id = rid ∧ r.chat_id = chat_id then
          { r with title := title, text_probability := 1, image_probability := 1,
                   is_system := 1, sort_order := some sort_order }
        else r) }
    let db2 :=
      if row.user_customized = 1 then db1
      else
        { db1 with rules := db1.rules.map (fun r : RuleRow =>
            if r.id = rid ∧ r.chat_id = chat_id then
              { r with interval_minutes := some interval_minutes,
                       enabled := if enabled_by_default then 1 else 0 }
            else r) }
    let db3 := { db2 with
        text_options := db2.text_options.filter (fun o : TextOptRow => !(decide (o.rule_id = rid)))
        image_options := db2.image_options.filter (fun o : ImageOptRow => !(decide (o.rule_id = rid))) }
    (insert_pools db3 rid images, rid)
  | none =>
    let rid := db.next_rule_id
    let new_rule : RuleRow :=
      { id := rid, chat_id := chat_id, title := title, kind := "interval",
        days := none, time_hhmm := none, interval_minutes := some interval_minutes,
        created_at_ts := now_ts, last_sent_at_ts := none, message_text := "",
        image_file_id := none, is_system := 1, system_key := some system_key,
        text_probability := 1, image_probability := 1,
        enabled := if enabled_by_default then 1 else 0,
        user_customized := 0, sort_order := some sort_order }
    let db1 := { db with rules := db.rules ++ [new_rule], next_rule_id := rid + 1 }
    (insert_pools db1 rid images, rid)

/-! ## System-rule reconciler: src/bot/system/sync.py -/

structure SyncResult where
  added : List String
  removed : List String
deriving Repr, DecidableEq

/-- In-memory catalog entry (config_loader.SystemRule, schedule flattened). -/
structure SystemRuleC where
  system_key : String
  title : String
  kind : String
  enabled_by_default : Bool
  days : List Int
  time_hhmm : String
  interval_minutes : Int
  images : List ImagePayload
deriving Repr, DecidableEq

/-- `str(r["title"] or "").strip() or "Уведомление"`. -/
def display_title (t : String) : String :=
  if py_strip t = "" then "Уведомление" else py_strip t

/-- `system_key IS NULL OR TRIM(system_key) = ''`. -/
def is_blank_key : Option String → Bool
  | none => true
  | some k => py_strip k = ""

/-- The rows deleted by the first cleanup statement (legacy orphans). -/
def orphanPred (chat_id : Int) (r : RuleRow) : Bool :=
  decide (r.chat_id = chat_id) && decide (r.is_system = 1) && is_blank_key r.system_key

/-- The rows deleted by the second cleanup statement (keys gone from the
catalog). -/
def stalePred (chat_id : Int) (configured_keys : List String) (r : RuleRow) : Bool :=
  decide (r.chat_id = chat_id) && decide (r.is_system = 1) &&
    (match r.system_key with
     | some k => !(configured_keys.contains k)
     | none => false)

/-- `_cleanup_stale_system_rules` from src/bot/system/sync.py: a no-op when
the configured key set is empty. -/
def cleanup_stale_system_rules (db : Db) (chat_id : Int)
    (configured_keys : List String) : Db × List String :=
  if configured_keys.isEmpty then (db, [])
  else
    let db1 := delete_rules_where db (orphanPred chat_id)
    let removed := (db1.rules.filter (stalePred chat_id configured_keys)).map
        (fun r => display_title r.title)
    (delete_rules_where db1 (stalePred chat_id configured_keys), removed)

/-- The apply loop of `sync_system_rules_for_chat`: the enumeration index
becomes the sort order, titles of newly created rules are collected. -/
def sync_apply (chat_id : Int) (now_ts : Int) :
    List (Nat × SystemRuleC) → Db → List String → Db × List String
  | [], db, added => (db, added)
  | (idx, r) :: rest, db, added =>
    let existed := (find_rule_by_key db chat_id r.system_key).isSome
    let db1 :=
      if r.kind = "weekly" then
        (ensure_system_rule_weekly db chat_id r.system_key r.title r.days r.time_hhmm
          r.images r.enabled_by_default (Int.ofNat idx) now_ts).1
      else
        (ensure_system_rule_interval db chat_id r.system_key r.title r.interval_minutes
          r.images r.enabled_by_default (Int.ofNat idx) now_ts).1
    sync_apply chat_id now_ts rest db1 (if existed then added else added ++ [r.title])

/-- `sync_system_rules_for_chat` from src/bot/system/sync.py. -/
def sync_system_rules_for_chat (db : Db) (chat_id : Int)
    (catalog : List SystemRuleC) (now_ts : Int) : Db × SyncResult :=
  let configured := (catalog.map (fun r => r.system_key)).filter (fun k => k ≠ "")
  let step1 := cleanup_stale_system_rules db chat_id configured
  let step2 := sync_apply chat_id now_ts catalog.enum step1.1 []
  (step2.1, { added := step2.2, removed := step1.2 })

/-! ## Statement vocabulary -/

/-- The configured key set built by the reconciler. -/
def configured_of (catalog : List SystemRuleC) : List String :=
  (catalog.map (fun r => r.system_key)).filter (fun k => k ≠ "")

/-- The non-null system keys owned by a chat (collision candidates during
chat-id migration). -/
def old_keys_of (db : Db) (cid : Int) : List String :=
  (db.rules.filter (fun r : RuleRow => decide (r.chat_id = cid) && r.system_key.isSome)).filterMap
    (fun r => r.system_key)

/-- A rule whose system key collides with one of `keys`. -/
def collides_with (keys : List String) (r : RuleRow) : Bool :=
  match r.system_key with
  | some k => keys.contains k
  | none => false

/-- Re-parent a rule from the old to the new chat id. -/
def reparent (old_chat_id new_chat_id : Int) (r : RuleRow) : RuleRow :=
  if r.chat_id = old_chat_id then { r with chat_id := new_chat_id } else r

/-- A keyed stale system rule: the class whose display titles the cleanup
reports as removed. -/
def keyedStale (chat_id : Int) (keys : List String) (r : RuleRow) : Bool :=
  decide (r.chat_id = chat_id) && decide (r.is_system = 1) &&
    (match r.system_key with
     | some k => !(decide (py_strip k = "")) && !(keys.contains k)
     | none => false)

/-- Primary-key sanity of the rules table: distinct ids, all below the next
fresh id. -/
def RuleIdsOk (db : Db) : Prop :=
  (db.rules.map (fun r => r.id)).Nodup ∧ ∀ r ∈ db.rules, r.id < db.next_rule_id

/-- A catalog as produced by the loader: keys stripped and non-blank. -/
def ValidCatalog (catalog : List SystemRuleC) : Prop :=
  ∀ e ∈ catalog, e.system_key ≠ "" ∧ py_strip e.system_key = e.system_key

/-- Every system rule of the chat carries a non-blank key from the configured
set (the postcondition claim C3 is about). -/
def GoodChat (chat_id : Int) (keys : List String) (db : Db) : Prop :=
  ∀ r ∈ db.rules, r.chat_id = chat_id → r.is_system = 1 →
    ∃ k, r.system_key = some k ∧ py_strip k ≠ "" ∧ k ∈ keys

/-- The catalog-visible data of an image option row. -/
def image_row_data (o : ImageOptRow) : String × String × ℚ := (o.ref, o.ref_type, o.weight)

/-- The catalog-visible data of an image payload. -/
def image_payload_data (i : ImagePayload) : String × String × ℚ := (i.ref, i.ref_type, i.weight)

/-- The row `ensure_system_rule_weekly` inserts when no rule with the key
exists. -/
def new_weekly_rule (cid : Int) (key title0 : String) (days : List Int)
    (thh : String) (ebd : Bool) (so now0 : Int) (rid : Nat) : RuleRow :=
  { id := rid, chat_id := cid, title := title0, kind := "weekly",
    days := some (days_string days), time_hhmm := some thh, interval_minutes := none,
    created_at_ts := now0, last_sent_at_ts := none, message_text := "",
    image_file_id := none, is_system := 1, system_key := some key,
    text_probability := 1, image_probability := 1,
    enabled := if ebd then 1 else 0, user_customized := 0, sort_order := some so }

/-- The row `ensure_system_rule_interval` inserts when no rule with the key
exists. -/
def new_interval_rule (cid : Int) (key title0 : String) (ivm : Int)
    (ebd : Bool) (so now0 : Int) (rid : Nat) : RuleRow :=
  { id := rid, chat_id := cid, title := title0, kind := "interval",
    days := none, time_hhmm := none, interval_minutes := some ivm,
    created_at_ts := now0, last_sent_at_ts := none, message_text := "",
    image_file_id := none, is_system := 1, system_key := some key,
    text_probability := 1, image_probability := 1,
    enabled := if ebd then 1 else 0, user_customized := 0, sort_order := some so }

/-- A rule row with the given key fields and neutral remaining fields, for
concrete test databases. -/
def mkRule (rid : Nat) (cid : Int) (title : String) (key : Option String)
    (sys : Int) : RuleRow :=
  { id := rid, chat_id := cid, title := title, kind := "interval", days := none,
    time_hhmm := none, interval_minutes := some 30, created_at_ts := 5,
    last_sent_at_ts := none, message_text := "", image_file_id := none,
    is_system := sys, system_key := key, text_probability := 1,
    image_probability := 1, enabled := 1, user_customized := 0, sort_order := some 0 }

/-- Concrete database: chats 1 and 2 each own a system rule with key "k". -/
def exDbC2 : Db :=
  { chats := [⟨1, 1, "tz", none, 1⟩, ⟨2, 1, "tz", none, 1⟩],
    rules := [mkRule 1 1 "OLD" (some "k") 1, mkRule 2 2 "NEW" (some "k") 1],
    image_options := [], text_options := [],
    next_rule_id := 3, next_image_option_id := 1, next_text_option_id := 1 }

/-- Concrete database: chat 1 known, no rules at all. -/
def exDbC5 : Db :=
  { chats := [⟨1, 1, "tz", none, 1⟩], rules := [],
    image_options := [], text_options := [],
    next_rule_id := 1, next_image_option_id := 1, next_text_option_id := 1 }

/-- Concrete interval catalog entry with no images. -/
def mkEntry (key title0 : String) : SystemRuleC :=
  { system_key := key, title := title0, kind := "interval",
    enabled_by_default := true, days := [], time_hhmm := "",
    interval_minutes := 10, images := [] }

/-- Concrete database: chat 1 owns one system rule whose key "zz" is in no
catalog. -/
def exDbC3 : Db :=
  { chats := [⟨1, 1, "tz", none, 1⟩],
    rules := [mkRule 7 1 "STALE" (some "zz") 1],
    image_options := [], text_options := [],
    next_rule_id := 8, next_image_option_id := 1, next_text_option_id := 1 }

/-! # Theorems -/

/-! ## Picker lemmas -/

theorem posTotal_nil {α : Type} (wt : α → ℚ) : posTotal wt [] = 0 := rfl

theorem weighted_choice_nil {α : Type} (wt : α → ℚ) (r : ℚ) :
    weighted_choice wt [] r = none := rfl

theorem posTotal_cons {α : Type} (wt : α → ℚ) (o : α) (l : List α) :
    posTotal wt (o :: l) = (if 0 < wt o then wt o else 0) + posTotal wt l := by
  simp [posTotal]

theorem posTotal_nonneg {α : Type} (wt : α → ℚ) (l : List α) : 0 ≤ posTotal wt l := by
  induction l with
  | nil => simp [posTotal]
  | cons o rest ih =>
    rw [posTotal_cons]
    have h : (0 : ℚ) ≤ if 0 < wt o then wt o else 0 := by
      split <;> linarith
    linarith

theorem pickLoop_mem_pos {α : Type} (wt : α → ℚ) (r : ℚ) (l : List α) :
    ∀ (upto : ℚ) (o : α), pickLoop wt r l upto = some o → o ∈ l ∧ 0 < wt o := by
  induction l with
  | nil => intro upto o h; simp [pickLoop] at h
  | cons x rest ih =>
    intro upto o h
    simp only [pickLoop] at h
    by_cases h1 : wt x ≤ 0
    · rw [if_pos h1] at h
      obtain ⟨hm, hw⟩ := ih upto o h
      exact ⟨List.mem_cons_of_mem x hm, hw⟩
    · rw [if_neg h1] at h
      by_cases h2 : r ≤ upto + wt x
      · rw [if_pos h2] at h
        cases h
        exact ⟨List.mem_cons_self x rest, lt_of_not_le h1⟩
      · rw [if_neg h2] at h
        obtain ⟨hm, hw⟩ := ih (upto + wt x) o h
        exact ⟨List.mem_cons_of_mem x hm, hw⟩

theorem pickLoop_isSome {α : Type} (wt : α → ℚ) (r : ℚ) (l : List α) :
    ∀ upto : ℚ, r ≤ upto + posTotal wt l → 0 < posTotal wt l →
      (pickLoop wt r l upto).isSome = true := by
  induction l with
  | nil => intro upto _ hp; simp [posTotal] at hp
  | cons x rest ih =>
    intro upto hr hp
    rw [posTotal_cons] at hr hp
    simp only [pickLoop]
    by_cases h1 : wt x ≤ 0
    · have hx : ¬ (0 < wt x) := not_lt.mpr h1
      rw [if_neg hx] at hr hp
      rw [if_pos h1]
      exact ih upto (by linarith) (by linarith)
    · have hx : 0 < wt x := lt_of_not_le h1
      rw [if_pos hx] at hr hp
      rw [if_neg h1]
      by_cases h2 : r ≤ upto + wt x
      · rw [if_pos h2]; rfl
      · rw [if_neg h2]
        have hrest : 0 < posTotal wt rest := by
          have := posTotal_nonneg wt rest
          by_contra hc
          push_neg at hc
          have : posTotal wt rest = 0 := le_antisymm hc this
          rw [this] at hr
          exact h2 (by linarith)
        exact ih (upto + wt x) (by linarith) hrest

theorem weighted_choice_none_iff {α : Type} (wt : α → ℚ) (l : List α) (r : ℚ) :
    weighted_choice wt l r = none ↔ l = [] := by
  cases l with
  | nil => simp [weighted_choice]
  | cons x rest =>
    simp only [weighted_choice]
    constructor
    · intro h
      by_cases ht : posTotal wt (x :: rest) ≤ 0
      · rw [if_pos ht] at h; cases h
      · rw [if_neg ht] at h
        cases heq : pickLoop wt r (x :: rest) 0 with
        | some o => rw [heq] at h; cases h
        | none =>
          rw [heq] at h
          simp only at h
          have hs : (x :: rest).getLast?.isSome = true := by
            rw [List.getLast?_isSome]
            exact List.cons_ne_nil x rest
          rw [h] at hs
          cases hs
    · intro h; cases h

theorem weighted_choice_degenerate {α : Type} (wt : α → ℚ) (x : α) (rest : List α)
    (r : ℚ) (h : posTotal wt (x :: rest) ≤ 0) :
    weighted_choice wt (x :: rest) r = some x := by
  simp [weighted_choice, h]

theorem weighted_choice_mem {α : Type} (wt : α → ℚ) (l : List α) (r : ℚ) (o : α) :
    weighted_choice wt l r = some o → o ∈ l := by
  cases l with
  | nil => intro h; simp [weighted_choice] at h
  | cons x rest =>
    intro h
    simp only [weighted_choice] at h
    by_cases ht : posTotal wt (x :: rest) ≤ 0
    · rw [if_pos ht] at h
      have hxo : x = o := by injection h
      rw [← hxo]
      exact List.mem_cons_self x rest
    · rw [if_neg ht] at h
      cases heq : pickLoop wt r (x :: rest) 0 with
      | some p =>
        rw [heq] at h
        simp only at h
        have hpo : p = o := by injection h
        rw [← hpo]
        exact (pickLoop_mem_pos wt r (x :: rest) 0 p heq).1
      | none =>
        rw [heq] at h
        simp only at h
        have h2 : o ∈ (x :: rest).getLast? := h
        obtain ⟨hne, ho⟩ := List.mem_getLast?_eq_getLast h2
        rw [ho]
        exact List.getLast_mem hne

theorem weighted_choice_pos {α : Type} (wt : α → ℚ) (l : List α) (r : ℚ)
    (h0 : 0 ≤ r) (h1 : r < posTotal wt l) :
    ∃ o, weighted_choice wt l r = some o ∧ o ∈ l ∧ 0 < wt o := by
  have hpos : 0 < posTotal wt l := lt_of_le_of_lt h0 h1
  cases l with
  | nil => simp [posTotal] at hpos
  | cons x rest =>
    have hsome := pickLoop_isSome wt r (x :: rest) 0 (by linarith) hpos
    obtain ⟨o, ho⟩ := Option.isSome_iff_exists.mp hsome
    obtain ⟨hm, hw⟩ := pickLoop_mem_pos wt r (x :: rest) 0 o ho
    refine ⟨o, ?_, hm, hw⟩
    simp only [weighted_choice]
    rw [if_neg (not_le.mpr hpos), ho]

theorem candidateTexts_ne_nil (text_options : List TextOpt) (idopt : Option Nat)
    (h : text_options ≠ []) : candidateTexts text_options idopt ≠ [] := by
  simp only [candidateTexts]
  split
  · split
    · exact h
    · rename_i hun
      intro hc
      rw [hc] at hun
      exact hun rfl
  · rename_i htied
    intro hc
    rw [hc] at htied
    exact htied rfl

/-! ## Claim C7: weighted choice and system content picking -/

/-- C7: `weighted_choice` returns absent exactly on an empty list; with a
non-positive positive-weight total it returns the first item; with a valid
draw below the positive total it returns an item of positive weight.
Consequently `pick_system_content` never picks a zero-weight image when an
available positive-weight image exists, and the text it picks comes from the
pool tied to the picked image's id, falling back to unattached options and
then to the full text-option list. -/
theorem weighted_pick_and_system_content :
    (∀ (α : Type) (wt : α → ℚ) (l : List α) (r : ℚ),
      weighted_choice wt l r = none ↔ l = [])
    ∧ (∀ (α : Type) (wt : α → ℚ) (x : α) (rest : List α) (r : ℚ),
        posTotal wt (x :: rest) ≤ 0 → weighted_choice wt (x :: rest) r = some x)
    ∧ (∀ (α : Type) (wt : α → ℚ) (l : List α) (r : ℚ), 0 ≤ r → r < posTotal wt l →
        ∃ o, weighted_choice wt l r = some o ∧ o ∈ l ∧ 0 < wt o)
    ∧ (∀ (pathExists : String → Bool) (text_options : List TextOpt)
        (image_options : List ImageOpt) (rImg rText : ℚ), 0 ≤ rImg →
        rImg < posTotal (fun i : ImageOpt => i.weight)
          (image_options.filter (fun i => is_image_option_available pathExists i.ref i.ref_type)) →
        ∃ img : ImageOpt,
          img ∈ image_options.filter (fun i => is_image_option_available pathExists i.ref i.ref_type)
          ∧ 0 < img.weight
          ∧ (pick_system_content pathExists text_options image_options rImg rText).image_option_id
              = some img.id
          ∧ (pick_system_content pathExists text_options image_options rImg rText).image_ref
              = some img.ref
          ∧ (text_options = [] →
              (pick_system_content pathExists text_options image_options rImg rText).text = "")
          ∧ (text_options ≠ [] →
              ∃ t ∈ candidateTexts text_options (some img.id),
                (pick_system_content pathExists text_options image_options rImg rText).text
                  = t.text)) := by
  refine ⟨fun α wt l r => weighted_choice_none_iff wt l r,
          fun α wt x rest r h => weighted_choice_degenerate wt x rest r h,
          fun α wt l r h0 h1 => weighted_choice_pos wt l r h0 h1, ?_⟩
  intro pathExists topts iopts rImg rText h0 h1
  obtain ⟨img, hwc, hmem, hwpos⟩ := weighted_choice_pos _ _ rImg h0 h1
  refine ⟨img, hmem, hwpos, ?_, ?_, ?_, ?_⟩
  · simp [pick_system_content, hwc]
  · simp [pick_system_content, hwc]
  · intro ht
    subst ht
    simp [pick_system_content, hwc, candidateTexts, weighted_choice_nil]
  · intro ht
    have hc := candidateTexts_ne_nil topts (some img.id) ht
    cases hwt : weighted_choice (fun t : TextOpt => t.weight)
        (candidateTexts topts (some img.id)) rText with
    | none => exact absurd ((weighted_choice_none_iff _ _ _).mp hwt) hc
    | some t =>
      refine ⟨t, weighted_choice_mem _ _ _ _ hwt, ?_⟩
      simp [pick_system_content, hwc, hwt]

/-- Witness for C7 at the spec's own vector: image A (weight 1) vs B (weight
0); the picked image is A and the text belongs to A's pool. -/
theorem weighted_pick_and_system_content_witness :
    (0 : ℚ) ≤ 0
    ∧ (0 : ℚ) < posTotal (fun i : ImageOpt => i.weight)
        (([⟨1, "A", "file_id", 1⟩, ⟨2, "B", "file_id", 0⟩] : List ImageOpt).filter
          (fun i => is_image_option_available (fun _ => false) i.ref i.ref_type))
    ∧ (∃ img : ImageOpt,
        img ∈ ([⟨1, "A", "file_id", 1⟩, ⟨2, "B", "file_id", 0⟩] : List ImageOpt).filter
          (fun i => is_image_option_available (fun _ => false) i.ref i.ref_type)
        ∧ 0 < img.weight
        ∧ (pick_system_content (fun _ => false)
            [⟨10, some 1, "TA", 1⟩, ⟨11, some 2, "TB", 1⟩]
            [⟨1, "A", "file_id", 1⟩, ⟨2, "B", "file_id", 0⟩] 0 0).image_option_id = some img.id
        ∧ (pick_system_content (fun _ => false)
            [⟨10, some 1, "TA", 1⟩, ⟨11, some 2, "TB", 1⟩]
            [⟨1, "A", "file_id", 1⟩, ⟨2, "B", "file_id", 0⟩] 0 0).image_ref = some img.ref
        ∧ (([⟨10, some 1, "TA", 1⟩, ⟨11, some 2, "TB", 1⟩] : List TextOpt) = [] →
            (pick_system_content (fun _ => false)
              [⟨10, some 1, "TA", 1⟩, ⟨11, some 2, "TB", 1⟩]
              [⟨1, "A", "file_id", 1⟩, ⟨2, "B", "file_id", 0⟩] 0 0).text = "")
        ∧ (([⟨10, some 1, "TA", 1⟩, ⟨11, some 2, "TB", 1⟩] : List TextOpt) ≠ [] →
            ∃ t ∈ candidateTexts [⟨10, some 1, "TA", 1⟩, ⟨11, some 2, "TB", 1⟩] (some img.id),
              (pick_system_content (fun _ => false)
                [⟨10, some 1, "TA", 1⟩, ⟨11, some 2, "TB", 1⟩]
                [⟨1, "A", "file_id", 1⟩, ⟨2, "B", "file_id", 0⟩] 0 0).text = t.text)) := by
  have hfil : (([⟨1, "A", "file_id", 1⟩, ⟨2, "B", "file_id", 0⟩] : List ImageOpt).filter
      (fun i => is_image_option_available (fun _ => false) i.ref i.ref_type))
      = [⟨1, "A", "file_id", 1⟩, ⟨2, "B", "file_id", 0⟩] := by
    simp [is_image_option_available]
  have hpos : (0 : ℚ) < posTotal (fun i : ImageOpt => i.weight)
      [⟨1, "A", "file_id", 1⟩, ⟨2, "B", "file_id", 0⟩] := by
    rw [posTotal_cons, posTotal_cons, posTotal_nil]
    norm_num
  refine ⟨le_refl 0, by rw [hfil]; exact hpos, ?_⟩
  exact weighted_pick_and_system_content.2.2.2 (fun _ => false)
    [⟨10, some 1, "TA", 1⟩, ⟨11, some 2, "TB", 1⟩]
    [⟨1, "A", "file_id", 1⟩, ⟨2, "B", "file_id", 0⟩] 0 0 (le_refl 0)
    (by rw [hfil]; exact hpos)

/-! ## Claim C9: sender retry policy -/

theorem netBackoffTable_succ (n : Nat) :
    netBackoffTable (n + 1) = netBackoffTable n ++ [min ((2 : ℚ) ^ n) 15] := by
  simp [netBackoffTable, List.range_succ]

theorem min_backoff_step (n : Nat) :
    min (min ((2 : ℚ) ^ n) 15 * 2) 15 = min ((2 : ℚ) ^ (n + 1)) 15 := by
  by_cases h : (2 : ℚ) ^ n ≤ 15
  · rw [min_eq_left h, pow_succ]
  · push_neg at h
    rw [min_eq_right (le_of_lt h)]
    have hmono : (2 : ℚ) ^ n ≤ (2 : ℚ) ^ (n + 1) := by
      have h1 : (1 : ℚ) ≤ 2 := by norm_num
      exact pow_le_pow_right₀ h1 (Nat.le_succ n)
    have h2 : (15 : ℚ) ≤ (2 : ℚ) ^ (n + 1) := le_trans (le_of_lt h) hmono
    rw [min_eq_right h2]
    norm_num

theorem callLoop_tries_lt (script : Nat → CallOutcome) :
    ∀ (rem attempt : Nat) (delay : ℚ) (lastExc : Option CallOutcome)
      (rl net : List ℚ), 1 ≤ attempt →
      (callLoop script attempt rem delay lastExc rl net).tries < attempt + rem := by
  intro rem
  induction rem with
  | zero =>
    intro attempt delay lastExc rl net h1
    simp only [callLoop]
    omega
  | succ k ih =>
    intro attempt delay lastExc rl net h1
    simp only [callLoop]
    cases hs : script attempt with
    | ok => dsimp only; omega
    | rateLimit ra =>
      dsimp only
      have := ih (attempt + 1) delay (some (CallOutcome.rateLimit ra)) (rl ++ [ra + 1]) net (by omega)
      omega
    | network =>
      dsimp only
      by_cases hk : k = 0
      · rw [if_pos hk]; dsimp only; omega
      · rw [if_neg hk]
        have := ih (attempt + 1) (min (delay * 2) 15) (some CallOutcome.network) rl (net ++ [delay]) (by omega)
        omega
    | other => dsimp only; omega

theorem callLoop_net_sleeps (script : Nat → CallOutcome) :
    ∀ (rem attempt : Nat) (lastExc : Option CallOutcome) (rl net : List ℚ),
      net = netBackoffTable net.length →
      (callLoop script attempt rem (min ((2 : ℚ) ^ net.length) 15) lastExc rl net).net_sleeps
        = netBackoffTable
            (callLoop script attempt rem (min ((2 : ℚ) ^ net.length) 15) lastExc rl net).net_sleeps.length := by
  intro rem
  induction rem with
  | zero => intro attempt lastExc rl net hnet; simpa [callLoop] using hnet
  | succ k ih =>
    intro attempt lastExc rl net hnet
    simp only [callLoop]
    cases hs : script attempt with
    | ok => dsimp only; simpa using hnet
    | rateLimit ra =>
      dsimp only
      exact ih (attempt + 1) (some (CallOutcome.rateLimit ra)) (rl ++ [ra + 1]) net hnet
    | network =>
      dsimp only
      by_cases hk : k = 0
      · rw [if_pos hk]; dsimp only; simpa using hnet
      · rw [if_neg hk]
        have hlen : (net ++ [min ((2 : ℚ) ^ net.length) 15]).length = net.length + 1 := by simp
        have hnet2 : net ++ [min ((2 : ℚ) ^ net.length) 15]
            = netBackoffTable (net ++ [min ((2 : ℚ) ^ net.length) 15]).length := by
          rw [hlen, netBackoffTable_succ, ← hnet]
        have hdelay : min (min ((2 : ℚ) ^ net.length) 15 * 2) 15
            = min ((2 : ℚ) ^ (net ++ [min ((2 : ℚ) ^ net.length) 15]).length) 15 := by
          rw [hlen, min_backoff_step]
        rw [hdelay]
        exact ih (attempt + 1) (some CallOutcome.network) rl _ hnet2
    | other => dsimp only; simpa using hnet

theorem callLoop_rl_sleeps (script : Nat → CallOutcome) :
    ∀ (rem attempt : Nat) (delay : ℚ) (lastExc : Option CallOutcome) (rl net : List ℚ),
      (∀ s ∈ rl, ∃ i ra, script i = CallOutcome.rateLimit ra ∧ s = ra + 1) →
      ∀ s ∈ (callLoop script attempt rem delay lastExc rl net).rl_sleeps,
        ∃ i ra, script i = CallOutcome.rateLimit ra ∧ s = ra + 1 := by
  intro rem
  induction rem with
  | zero => intro attempt delay lastExc rl net hrl; simpa [callLoop] using hrl
  | succ k ih =>
    intro attempt delay lastExc rl net hrl
    simp only [callLoop]
    cases hs : script attempt with
    | ok => dsimp only; simpa using hrl
    | rateLimit ra =>
      dsimp only
      refine ih (attempt + 1) delay _ (rl ++ [ra + 1]) net ?_
      intro s hsm
      rcases List.mem_append.mp hsm with hm | hm
      · exact hrl s hm
      · refine ⟨attempt, ra, hs, ?_⟩
        simpa using hm
    | network =>
      dsimp only
      by_cases hk : k = 0
      · rw [if_pos hk]; dsimp only; simpa using hrl
      · rw [if_neg hk]
        exact ih (attempt + 1) (min (delay * 2) 15) (some CallOutcome.network) rl (net ++ [delay]) hrl
    | other => dsimp only; simpa using hrl

theorem callLoop_other_stops (script : Nat → CallOutcome) (i : Nat)
    (hother : script i = CallOutcome.other) :
    ∀ (rem attempt : Nat) (delay : ℚ) (lastExc : Option CallOutcome) (rl net : List ℚ),
      (∀ j, attempt ≤ j → j < i → retryable (script j)) →
      attempt ≤ i → i < attempt + rem →
      (callLoop script attempt rem delay lastExc rl net).outcome = some CallOutcome.other
      ∧ (callLoop script attempt rem delay lastExc rl net).tries = i := by
  intro rem
  induction rem with
  | zero => intro attempt delay lastExc rl net hretry hle hlt; omega
  | succ k ih =>
    intro attempt delay lastExc rl net hretry hle hlt
    by_cases hai : attempt = i
    · subst hai
      constructor
      · simp [callLoop, hother]
      · simp [callLoop, hother]
    · have hlt2 : attempt < i := lt_of_le_of_ne hle hai
      have hr := hretry attempt (le_refl attempt) hlt2
      simp only [callLoop]
      cases hs : script attempt with
      | ok => rw [hs] at hr; simp [retryable] at hr
      | rateLimit ra =>
        dsimp only
        exact ih (attempt + 1) delay _ (rl ++ [ra + 1]) net
          (fun j h1 h2 => hretry j (by omega) h2) (by omega) (by omega)
      | network =>
        dsimp only
        by_cases hk : k = 0
        · omega
        · rw [if_neg hk]
          exact ih (attempt + 1) (min (delay * 2) 15) (some CallOutcome.network) rl (net ++ [delay])
            (fun j h1 h2 => hretry j (by omega) h2) (by omega) (by omega)
      | other => rw [hs] at hr; simp [retryable] at hr

theorem callLoop_exhaust (script : Nat → CallOutcome) :
    ∀ (rem attempt : Nat) (delay : ℚ) (lastExc : Option CallOutcome) (rl net : List ℚ),
      1 ≤ rem →
      (∀ j, attempt ≤ j → j < attempt + rem → retryable (script j)) →
      (callLoop script attempt rem delay lastExc rl net).outcome = some (script (attempt + rem - 1))
      ∧ (callLoop script attempt rem delay lastExc rl net).tries = attempt + rem - 1 := by
  intro rem
  induction rem with
  | zero => intro attempt delay lastExc rl net h1; omega
  | succ k ih =>
    intro attempt delay lastExc rl net h1 hretry
    have hr := hretry attempt (le_refl attempt) (by omega)
    have hidx : attempt + (k + 1) - 1 = attempt + k := by omega
    simp only [callLoop]
    cases hs : script attempt with
    | ok => rw [hs] at hr; simp [retryable] at hr
    | rateLimit ra =>
      dsimp only
      by_cases hk : k = 0
      · subst hk
        have ha : attempt + (0 + 1) - 1 = attempt := by omega
        rw [ha, hs]
        simp only [callLoop]
        exact ⟨trivial, by omega⟩
      · have hih := ih (attempt + 1) delay (some (CallOutcome.rateLimit ra)) (rl ++ [ra + 1]) net
          (by omega) (fun j hj1 hj2 => hretry j (by omega) (by omega))
        have ha : attempt + 1 + k - 1 = attempt + (k + 1) - 1 := by omega
        rw [ha] at hih
        exact hih
    | network =>
      dsimp only
      by_cases hk : k = 0
      · subst hk
        have ha : attempt + (0 + 1) - 1 = attempt := by omega
        rw [ha, hs]
        rw [if_pos rfl]
        dsimp only
        exact ⟨rfl, rfl⟩
      · rw [if_neg hk]
        have hih := ih (attempt + 1) (min (delay * 2) 15) (some CallOutcome.network) rl (net ++ [delay])
          (by omega) (fun j hj1 hj2 => hretry j (by omega) (by omega))
        have ha : attempt + 1 + k - 1 = attempt + (k + 1) - 1 := by omega
        rw [ha] at hih
        exact hih
    | other => rw [hs] at hr; simp [retryable] at hr

/-- C9: the retry wrapper makes at most `retry_attempts` tries; rate-limit
sleeps equal the platform-advised delay plus one second; network/timeout
sleeps follow the 1-second doubling backoff capped at 15 seconds; a
non-retryable error stops the loop immediately at its attempt; and when every
attempt fails with a retryable error, the final attempt's error is the one
raised. -/
theorem sender_retry_policy :
    (∀ (n : Nat) (script : Nat → CallOutcome), (call_with_retries n script).tries ≤ n)
    ∧ (∀ (n : Nat) (script : Nat → CallOutcome),
        (call_with_retries n script).net_sleeps
          = netBackoffTable (call_with_retries n script).net_sleeps.length)
    ∧ (∀ (n : Nat) (script : Nat → CallOutcome),
        ∀ s ∈ (call_with_retries n script).rl_sleeps,
          ∃ i ra, script i = CallOutcome.rateLimit ra ∧ s = ra + 1)
    ∧ (∀ (n i : Nat) (script : Nat → CallOutcome), 1 ≤ i → i ≤ n →
        (∀ j, 1 ≤ j → j < i → retryable (script j)) → script i = CallOutcome.other →
        (call_with_retries n script).outcome = some CallOutcome.other
        ∧ (call_with_retries n script).tries = i)
    ∧ (∀ (n : Nat) (script : Nat → CallOutcome), 1 ≤ n →
        (∀ j, 1 ≤ j → j ≤ n → retryable (script j)) →
        (call_with_retries n script).outcome = some (script n)
        ∧ (call_with_retries n script).tries = n) := by
  refine ⟨?_, ?_, ?_, ?_, ?_⟩
  · intro n script
    have h := callLoop_tries_lt script n 1 1 none [] [] (le_refl 1)
    simp only [call_with_retries]
    omega
  · intro n script
    have h := callLoop_net_sleeps script n 1 none [] [] (by simp [netBackoffTable])
    have h1 : min ((2 : ℚ) ^ ([] : List ℚ).length) 15 = 1 := by
      simp
    rw [h1] at h
    exact h
  · intro n script
    exact callLoop_rl_sleeps script n 1 1 none [] [] (by intro s hs; simp at hs)
  · intro n i script h1 h2 hretry hother
    exact callLoop_other_stops script i hother n 1 1 none [] []
      (fun j hj1 hj2 => hretry j hj1 hj2) h1 (by omega)
  · intro n script h1 hretry
    have h := callLoop_exhaust script n 1 1 none [] [] h1
      (fun j hj1 hj2 => hretry j hj1 (by omega))
    have ha : 1 + n - 1 = n := by omega
    rw [ha] at h
    exact h

/-- Witness for C9: two attempts, first rate-limited, second a network error —
the loop raises the network error after exactly two tries. -/
theorem sender_retry_policy_witness :
    1 ≤ 2
    ∧ (∀ j, 1 ≤ j → j ≤ 2 →
        retryable ((fun j => if j = 1 then CallOutcome.rateLimit 3 else CallOutcome.network) j))
    ∧ (call_with_retries 2
        (fun j => if j = 1 then CallOutcome.rateLimit 3 else CallOutcome.network)).outcome
        = some ((fun j => if j = 1 then CallOutcome.rateLimit 3 else CallOutcome.network) 2)
    ∧ (call_with_retries 2
        (fun j => if j = 1 then CallOutcome.rateLimit 3 else CallOutcome.network)).tries = 2 := by
  have hretry : ∀ j, 1 ≤ j → j ≤ 2 →
      retryable ((fun j => if j = 1 then CallOutcome.rateLimit 3 else CallOutcome.network) j) := by
    intro j h1 h2
    by_cases hj : j = 1
    · simp [hj, retryable]
    · simp [hj, retryable]
  have h := sender_retry_policy.2.2.2.2 2
    (fun j => if j = 1 then CallOutcome.rateLimit 3 else CallOutcome.network)
    (by norm_num) hretry
  exact ⟨by norm_num, hretry, h.1, h.2⟩

/-! ## Claim C6: next interval run instant -/

/-- C6: for an interval rule with `retry_attempt = 0` the computed next-run
instant is `now + 60` when the interval is non-positive; otherwise, with
anchor `last_sent_at_ts or created_at_ts or now`, it equals
`anchor + (floor((now - anchor) / interval) + 1) * interval` when the anchor
is not in the future — the first period boundary strictly after `now` —
and exactly `anchor + interval` when the anchor lies in the future. -/
theorem interval_next_run_characterization (im : Int) (last_sent : Option Int)
    (created now : Int) :
    (im ≤ 0 → interval_run_at_ts 0 im last_sent created now = now + 60)
    ∧ (0 < im → anchor_of last_sent created now ≤ now →
        interval_run_at_ts 0 im last_sent created now
          = anchor_of last_sent created now
            + ((now - anchor_of last_sent created now) / (im * 60) + 1) * (im * 60)
        ∧ now < interval_run_at_ts 0 im last_sent created now
        ∧ interval_run_at_ts 0 im last_sent created now ≤ now + im * 60)
    ∧ (0 < im → now < anchor_of last_sent created now →
        interval_run_at_ts 0 im last_sent created now
          = anchor_of last_sent created now + im * 60) := by
  have hrun : interval_run_at_ts 0 im last_sent created now
      = compute_next_interval_run_ts im last_sent created now := by
    simp [interval_run_at_ts]
  refine ⟨?_, ?_, ?_⟩
  · intro him
    have hsec : im * 60 ≤ 0 := by nlinarith
    rw [hrun]
    simp only [compute_next_interval_run_ts]
    rw [if_pos hsec]
  · intro him hanch
    have hsec : 0 < im * 60 := by nlinarith
    have heq : compute_next_interval_run_ts im last_sent created now
        = anchor_of last_sent created now
          + ((now - anchor_of last_sent created now) / (im * 60) + 1) * (im * 60) := by
      simp only [compute_next_interval_run_ts]
      rw [if_neg (not_le.mpr hsec), if_neg (not_lt.mpr hanch)]
    rw [hrun, heq]
    refine ⟨rfl, ?_, ?_⟩
    all_goals {
      have hmod := Int.emod_add_ediv (now - anchor_of last_sent created now) (im * 60)
      have hmn := Int.emod_nonneg (now - anchor_of last_sent created now) (ne_of_gt hsec)
      have hml := Int.emod_lt_of_pos (now - anchor_of last_sent created now) hsec
      have hexp : ((now - anchor_of last_sent created now) / (im * 60) + 1) * (im * 60)
          = (im * 60) * ((now - anchor_of last_sent created now) / (im * 60)) + im * 60 := by
        ring
      rw [hexp]
      omega
    }
  · intro him hanch
    have hsec : 0 < im * 60 := by nlinarith
    rw [hrun]
    simp only [compute_next_interval_run_ts]
    rw [if_neg (not_le.mpr hsec), if_pos hanch]

/-- Witness for C6, the spec's own vector: now 1000, 5-minute interval, never
sent, created at 900 — the next run is 1200. -/
theorem interval_next_run_characterization_witness :
    (0 : Int) < 5 ∧ anchor_of none 900 1000 ≤ 1000
    ∧ interval_run_at_ts 0 5 none 900 1000 = 1200 := by
  refine ⟨by norm_num, by decide, ?_⟩
  have h := ((interval_next_run_characterization 5 none 900 1000).2.1
    (by norm_num) (by decide)).1
  rw [h]
  decide

/-! ## Claim C1: body fallback in send_rule_notification -/

/-- C1 counterexample: with include_meta ON, an empty pick and a non-empty
text-option list, the body stays empty — the fallback does not fire (the code
guards it with `not include_meta`). -/
theorem system_rule_body_meta_on_no_fallback :
    system_rule_body true ⟨"", none, none, none⟩ [⟨1, none, "HELLO", (1 : ℚ)⟩] = ""
    ∧ ("" : String) ≠ "HELLO" := by
  constructor
  · rfl
  · decide

/-- C1 amended: when include_meta is OFF, the pick produced no text and no
image, and at least one text option exists, the body is the first text
option's text (whitespace-stripped). -/
theorem system_rule_body_meta_off_fallback (picked : PickedContent) (t0 : TextOpt)
    (rest : List TextOpt) (htext : py_strip picked.text = "")
    (himg : optStrFalsy picked.image_ref = true) :
    system_rule_body false picked (t0 :: rest) = py_strip t0.text := by
  simp [system_rule_body, htext, himg]

/-- Witness for the amended C1 at a concrete pick and option list. -/
theorem system_rule_body_meta_off_fallback_witness :
    py_strip (PickedContent.text ⟨" ", none, none, none⟩) = ""
    ∧ optStrFalsy (PickedContent.image_ref ⟨" ", none, none, none⟩) = true
    ∧ system_rule_body false ⟨" ", none, none, none⟩ [⟨1, none, "CAT", (1 : ℚ)⟩] = "CAT" := by
  refine ⟨by decide, by decide, ?_⟩
  have h := system_rule_body_meta_off_fallback ⟨" ", none, none, none⟩
    ⟨1, none, "CAT", (1 : ℚ)⟩ [] (by decide) (by decide)
  rw [h]
  decide

/-! ## Claim C8: draft TTL and actor isolation -/

/-- C8 counterexample: a stored draft whose `expires_at_ts` is 0 — strictly in
the past of now = 100 — is returned as present and left stored, because
`is_expired` requires a positive expiry. -/
theorem get_draft_zero_expiry_counterexample :
    (0 : Int) < 100
    ∧ get_draft 100 ⟨some ⟨some 1, some 10, some 0, none, none⟩, none⟩ 1 (some 10)
        = (some ⟨some 1, some 10, some 0, none, none⟩,
           ⟨some ⟨some 1, some 10, some 0, none, none⟩, none⟩) := by
  constructor
  · norm_num
  · rfl

/-- C8 amended: a stored draft whose positive `expires_at_ts` lies strictly in
the past is treated as absent and cleared on the lookup (likewise for
awaiting-photo state); a draft whose non-zero `actor_user_id` differs from the
supplied actor is treated as absent but left stored unchanged; a stored
`actor_user_id` of zero or absent matches any supplied actor. -/
theorem draft_ttl_and_actor_isolation (now cid : Int) (ud : UserData)
    (d : StoredDraft) (actor : Option Int) :
    (ud.draft_rule = some d → d.chat_id.getD 0 = cid →
      0 < d.expires_at_ts.getD 0 → d.expires_at_ts.getD 0 < now →
      get_draft now ud cid actor = (none, clear_flow ud))
    ∧ (ud.awaiting_photo = some d → d.chat_id.getD 0 = cid →
        0 < d.expires_at_ts.getD 0 → d.expires_at_ts.getD 0 < now →
        get_awaiting_photo now ud cid actor = (none, { ud with awaiting_photo := none }))
    ∧ (∀ a a0 : Int, ud.draft_rule = some d → d.chat_id.getD 0 = cid →
        is_expired now d = false → d.actor_user_id.getD 0 = a0 → a0 ≠ 0 → a ≠ a0 →
        get_draft now ud cid (some a) = (none, ud))
    ∧ (∀ a a0 : Int, ud.awaiting_photo = some d → d.chat_id.getD 0 = cid →
        is_expired now d = false → d.actor_user_id.getD 0 = a0 → a0 ≠ 0 → a ≠ a0 →
        get_awaiting_photo now ud cid (some a) = (none, ud))
    ∧ (ud.draft_rule = some d → d.chat_id.getD 0 = cid →
        is_expired now d = false → d.actor_user_id.getD 0 = 0 →
        get_draft now ud cid actor = (some d, ud))
    ∧ (ud.awaiting_photo = some d → d.chat_id.getD 0 = cid →
        is_expired now d = false → d.actor_user_id.getD 0 = 0 →
        get_awaiting_photo now ud cid actor = (some d, ud)) := by
  have hexp : ∀ _ : 0 < d.expires_at_ts.getD 0,
      ∀ _ : d.expires_at_ts.getD 0 < now, is_expired now d = true := by
    intro h1 h2
    simp only [is_expired, Bool.and_eq_true, decide_eq_true_eq]
    omega
  refine ⟨?_, ?_, ?_, ?_, ?_, ?_⟩
  · intro hud hchat h1 h2
    simp [get_draft, hud, hchat, hexp h1 h2]
  · intro hud hchat h1 h2
    simp [get_awaiting_photo, hud, hchat, hexp h1 h2]
  · intro a a0 hud hchat hne ha0 h0 hne2
    have hne3 : a0 ≠ a := fun h => hne2 h.symm
    simp [get_draft, hud, hchat, hne, ha0, h0, hne3]
  · intro a a0 hud hchat hne ha0 h0 hne2
    have hne3 : a0 ≠ a := fun h => hne2 h.symm
    simp [get_awaiting_photo, hud, hchat, hne, ha0, h0, hne3]
  · intro hud hchat hne ha0
    cases actor with
    | none => simp [get_draft, hud, hchat, hne]
    | some a => simp [get_draft, hud, hchat, hne, ha0]
  · intro hud hchat hne ha0
    cases actor with
    | none => simp [get_awaiting_photo, hud, hchat, hne]
    | some a => simp [get_awaiting_photo, hud, hchat, hne, ha0]

/-- Witness for the amended C8: an expired draft (expiry 50 < now 100) is
cleared by the lookup. -/
theorem draft_ttl_and_actor_isolation_witness :
    (⟨some ⟨some 1, some 10, some 50, none, none⟩, none⟩ : UserData).draft_rule
        = some ⟨some 1, some 10, some 50, none, none⟩
    ∧ (StoredDraft.chat_id ⟨some 1, some 10, some 50, none, none⟩).getD 0 = 1
    ∧ (0 : Int) < 50 ∧ (50 : Int) < 100
    ∧ get_draft 100 ⟨some ⟨some 1, some 10, some 50, none, none⟩, none⟩ 1 (some 10)
        = (none, clear_flow ⟨some ⟨some 1, some 10, some 50, none, none⟩, none⟩) := by
  refine ⟨rfl, by decide, by norm_num, by norm_num, ?_⟩
  exact (draft_ttl_and_actor_isolation 100 1
      ⟨some ⟨some 1, some 10, some 50, none, none⟩, none⟩
      ⟨some 1, some 10, some 50, none, none⟩ (some 10)).1 rfl (by decide)
      (by norm_num) (by norm_num)

/-! ## Claim C10: chat mismatch clears both containers -/

/-- C10: a `get_draft` lookup whose stored draft carries a different chat id
returns absent and clears both the draft and the awaiting-photo containers
(`clear_flow` removes both). -/
theorem get_draft_chat_mismatch_clears_both (now cid : Int) (ud : UserData)
    (d : StoredDraft) (actor : Option Int) (hud : ud.draft_rule = some d)
    (hchat : d.chat_id.getD 0 ≠ cid) :
    get_draft now ud cid actor = (none, UserData.mk none none) := by
  simp [get_draft, hud, hchat, clear_flow]

/-- Witness for C10: a draft stored for chat 1 looked up from chat 2 destroys
both containers, including a live awaiting-photo state. -/
theorem get_draft_chat_mismatch_clears_both_witness :
    (⟨some ⟨some 1, some 10, some 50, none, none⟩,
        some ⟨some 1, some 10, some 50, none, none⟩⟩ : UserData).draft_rule
      = some ⟨some 1, some 10, some 50, none, none⟩
    ∧ (StoredDraft.chat_id ⟨some 1, some 10, some 50, none, none⟩).getD 0 ≠ 2
    ∧ get_draft 40 ⟨some ⟨some 1, some 10, some 50, none, none⟩,
          some ⟨some 1, some 10, some 50, none, none⟩⟩ 2 (some 10)
        = (none, UserData.mk none none) := by
  refine ⟨rfl, by decide, ?_⟩
  exact get_draft_chat_mismatch_clears_both 40 2
    ⟨some ⟨some 1, some 10, some 50, none, none⟩,
        some ⟨some 1, some 10, some 50, none, none⟩⟩
    ⟨some 1, some 10, some 50, none, none⟩ (some 10) rfl (by decide)

/-! ## Claim C2: chat-id migration -/

theorem find?_ext {α : Type} (p q : α → Bool) (l : List α)
    (h : ∀ a ∈ l, p a = q a) : l.find? p = l.find? q := by
  induction l with
  | nil => rfl
  | cons x rest ih =>
    rw [List.find?_cons, List.find?_cons, h x (List.mem_cons_self x rest)]
    cases q x with
    | true => rfl
    | false => exact ih (fun a ha => h a (List.mem_cons_of_mem x ha))

/-- C2 counterexample: when both chats own a system rule with key "k",
migration keeps OLD's rule (re-parented) and deletes NEW's — the claim says
old's colliding rules are the ones dropped. -/
theorem migrate_chat_id_collision_counterexample :
    (∃ r ∈ (migrate_chat_id exDbC2 1 2).rules, r.id = 1 ∧ r.chat_id = 2 ∧ r.title = "OLD")
    ∧ (∀ r ∈ (migrate_chat_id exDbC2 1 2).rules, r.id ≠ 2) := by
  decide

/-- C2 amended: migrate_chat_id is a no-op when old = new or old has no chat
row; otherwise, when new already has a chat row, new's settings are
overwritten by old's, the old chat row is removed, and the rule table becomes:
NEW's pre-existing rules whose system_key collides with a key owned by old are
deleted, and every remaining rule of old is re-parented to new. -/
theorem migrate_chat_id_spec :
    (∀ (db : Db) (cid : Int), migrate_chat_id db cid cid = db)
    ∧ (∀ (db : Db) (old_id new_id : Int), find_chat db old_id = none →
        migrate_chat_id db old_id new_id = db)
    ∧ (∀ (db : Db) (old_id new_id : Int) (orow : ChatRow), old_id ≠ new_id →
        find_chat db old_id = some orow → (find_chat db new_id).isSome = true →
        (∃ c, find_chat (migrate_chat_id db old_id new_id) new_id = some c
          ∧ c.enabled = orow.enabled ∧ c.timezone = orow.timezone
          ∧ c.image_file_id = orow.image_file_id ∧ c.include_meta = orow.include_meta)
        ∧ find_chat (migrate_chat_id db old_id new_id) old_id = none
        ∧ (migrate_chat_id db old_id new_id).rules
            = (db.rules.filter (fun r =>
                !(decide (r.chat_id = new_id) && collides_with (old_keys_of db old_id) r))).map
                (reparent old_id new_id)) := by
  refine ⟨?_, ?_, ?_⟩
  · intro db cid
    simp [migrate_chat_id]
  · intro db old_id new_id hfind
    by_cases h : old_id = new_id
    · simp [migrate_chat_id, h]
    · simp [migrate_chat_id, h, hfind]
  · intro db old_id new_id orow hne hfind hnew
    have hchats : (migrate_chat_id db old_id new_id).chats
        = (db.chats.map (fun c : ChatRow =>
            if c.chat_id = new_id then
              { c with enabled := orow.enabled, timezone := orow.timezone,
                       image_file_id := orow.image_file_id,
                       include_meta := orow.include_meta }
            else c)).filter (fun c : ChatRow => !(decide (c.chat_id = old_id))) := by
      simp only [migrate_chat_id, if_neg hne, hfind, hnew, if_true, delete_rules_where]
      split <;> rfl
    have hrules : (migrate_chat_id db old_id new_id).rules
        = (db.rules.filter (fun r =>
            !(decide (r.chat_id = new_id) && collides_with (old_keys_of db old_id) r))).map
            (reparent old_id new_id) := by
      simp only [migrate_chat_id, if_neg hne, hfind, hnew, if_true, delete_rules_where]
      split
      · rename_i hk
        have hkeys : old_keys_of db old_id = [] := by
          simpa [old_keys_of, List.isEmpty_iff] using hk
        have hfil : db.rules.filter (fun r =>
            !(decide (r.chat_id = new_id) && collides_with (old_keys_of db old_id) r))
            = db.rules := by
          refine List.filter_eq_self.mpr ?_
          intro r _
          simp [hkeys, collides_with]
          cases r.system_key <;> simp
        rw [hfil]
        rfl
      · rfl
    refine ⟨?_, ?_, hrules⟩
    · obtain ⟨nrow, hn⟩ := Option.isSome_iff_exists.mp hnew
      have hnid : nrow.chat_id = new_id := by
        have := List.find?_some hn
        simpa using this
      have hupd : ∀ c : ChatRow,
          ((fun c : ChatRow =>
            if c.chat_id = new_id then
              { c with enabled := orow.enabled, timezone := orow.timezone,
                       image_file_id := orow.image_file_id,
                       include_meta := orow.include_meta }
            else c) c).chat_id = c.chat_id := by
        intro c
        by_cases h : c.chat_id = new_id <;> simp [h]
      rw [find_chat, hchats, List.find?_filter, List.find?_map]
      have hq : ∀ c ∈ db.chats,
          ((fun a => decide ((!decide (a.chat_id = old_id)) = true
              ∧ decide (a.chat_id = new_id) = true)) ∘ (fun c : ChatRow =>
            if c.chat_id = new_id then
              { c with enabled := orow.enabled, timezone := orow.timezone,
                       image_file_id := orow.image_file_id,
                       include_meta := orow.include_meta }
            else c)) c = (fun c : ChatRow => decide (c.chat_id = new_id)) c := by
        intro c _
        simp only [Function.comp_apply, hupd c]
        by_cases h : c.chat_id = new_id
        · have hco : ¬(c.chat_id = old_id) := by
            rw [h]
            intro hx
            exact hne hx.symm
          simp [h, hco]
          intro hx
          exact hne hx.symm
        · simp [h]
      rw [find?_ext _ _ _ hq]
      rw [find_chat] at hn
      rw [hn]
      refine ⟨_, rfl, ?_, ?_, ?_, ?_⟩ <;> simp [hnid]
    · rw [find_chat, hchats]
      refine List.find?_eq_none.mpr ?_
      intro c hc
      have := (List.mem_filter.mp hc).2
      simp at this
      simp [this]

/-- Witness for the amended C2 on the concrete two-chat database. -/
theorem migrate_chat_id_spec_witness :
    (1 : Int) ≠ 2
    ∧ find_chat exDbC2 1 = some ⟨1, 1, "tz", none, 1⟩
    ∧ (find_chat exDbC2 2).isSome = true
    ∧ ((∃ c, find_chat (migrate_chat_id exDbC2 1 2) 2 = some c
          ∧ c.enabled = (1 : Int) ∧ c.timezone = "tz"
          ∧ c.image_file_id = none ∧ c.include_meta = (1 : Int))
        ∧ find_chat (migrate_chat_id exDbC2 1 2) 1 = none
        ∧ (migrate_chat_id exDbC2 1 2).rules
            = (exDbC2.rules.filter (fun r =>
                !(decide (r.chat_id = 2) && collides_with (old_keys_of exDbC2 1) r))).map
                (reparent 1 2)) := by
  refine ⟨by norm_num, by decide, by decide, ?_⟩
  have h := migrate_chat_id_spec.2.2 exDbC2 1 2 ⟨1, 1, "tz", none, 1⟩
    (by norm_num) (by decide) (by decide)
  exact h

/-! ## Claim C4: ensure operations and the user_customized frame -/

theorem upsert_chat_rules (db : Db) (cid : Int) : (upsert_chat db cid).rules = db.rules := by
  unfold upsert_chat
  split <;> rfl

theorem upsert_chat_image_options (db : Db) (cid : Int) :
    (upsert_chat db cid).image_options = db.image_options := by
  unfold upsert_chat
  split <;> rfl

theorem upsert_chat_text_options (db : Db) (cid : Int) :
    (upsert_chat db cid).text_options = db.text_options := by
  unfold upsert_chat
  split <;> rfl

theorem upsert_chat_next_rule_id (db : Db) (cid : Int) :
    (upsert_chat db cid).next_rule_id = db.next_rule_id := by
  unfold upsert_chat
  split <;> rfl

theorem upsert_chat_next_image_option_id (db : Db) (cid : Int) :
    (upsert_chat db cid).next_image_option_id = db.next_image_option_id := by
  unfold upsert_chat
  split <;> rfl

theorem upsert_chat_next_text_option_id (db : Db) (cid : Int) :
    (upsert_chat db cid).next_text_option_id = db.next_text_option_id := by
  unfold upsert_chat
  split <;> rfl

theorem find_rule_by_key_upsert (db : Db) (cid cid2 : Int) (key : String) :
    find_rule_by_key (upsert_chat db cid) cid2 key = find_rule_by_key db cid2 key := by
  simp [find_rule_by_key, upsert_chat_rules]

theorem new_image_rows_data (rid : Nat) (imgs : List ImagePayload) :
    ∀ i0 : Nat, (new_image_rows rid i0 imgs).map image_row_data
      = imgs.map image_payload_data := by
  induction imgs with
  | nil => intro i0; rfl
  | cons img rest ih =>
    intro i0
    simp [new_image_rows, image_row_data, image_payload_data, ih (i0 + 1)]

theorem ensure_weekly_rules_cust (db : Db) (cid : Int) (key title0 : String)
    (days : List Int) (thh : String) (imgs : List ImagePayload) (ebd : Bool)
    (so now0 : Int) (row : RuleRow) (hfind : find_rule_by_key db cid key = some row)
    (hcust : row.user_customized = 1) :
    (ensure_system_rule_weekly db cid key title0 days thh imgs ebd so now0).1.rules
      = db.rules.map (fun r : RuleRow =>
          if r.id = row.id ∧ r.chat_id = cid then
            { r with title := title0, text_probability := 1, image_probability := 1,
                     is_system := 1, sort_order := some so,
                     days := some (days_string days) }
          else r) := by
  have hfind2 : find_rule_by_key (upsert_chat db cid) cid key = some row := by
    rw [find_rule_by_key_upsert]
    exact hfind
  simp only [ensure_system_rule_weekly, hfind2]
  rw [if_pos hcust]
  simp only [insert_pools]
  rw [upsert_chat_rules, List.map_map]
  congr 1
  funext r
  by_cases hc : r.id = row.id ∧ r.chat_id = cid
  · simp only [Function.comp_apply, if_pos hc]
  · simp only [Function.comp_apply, if_neg hc]

theorem ensure_weekly_rules_noncust (db : Db) (cid : Int) (key title0 : String)
    (days : List Int) (thh : String) (imgs : List ImagePayload) (ebd : Bool)
    (so now0 : Int) (row : RuleRow) (hfind : find_rule_by_key db cid key = some row)
    (hcust : ¬(row.user_customized = 1)) :
    (ensure_system_rule_weekly db cid key title0 days thh imgs ebd so now0).1.rules
      = db.rules.map (fun r : RuleRow =>
          if r.id = row.id ∧ r.chat_id = cid then
            { r with title := title0, text_probability := 1, image_probability := 1,
                     is_system := 1, sort_order := some so,
                     days := some (days_string days), time_hhmm := some thh,
                     enabled := if ebd then 1 else 0 }
          else r) := by
  have hfind2 : find_rule_by_key (upsert_chat db cid) cid key = some row := by
    rw [find_rule_by_key_upsert]
    exact hfind
  simp only [ensure_system_rule_weekly, hfind2]
  rw [if_neg hcust]
  simp only [insert_pools]
  rw [upsert_chat_rules, List.map_map, List.map_map]
  congr 1
  funext r
  by_cases hc : r.id = row.id ∧ r.chat_id = cid
  · simp only [Function.comp_apply, if_pos hc]
  · simp only [Function.comp_apply, if_neg hc]

theorem ensure_interval_rules_cust (db : Db) (cid : Int) (key title0 : String)
    (ivm : Int) (imgs : List ImagePayload) (ebd : Bool) (so now0 : Int)
    (row : RuleRow) (hfind : find_rule_by_key db cid key = some row)
    (hcust : row.user_customized = 1) :
    (ensure_system_rule_interval db cid key title0 ivm imgs ebd so now0).1.rules
      = db.rules.map (fun r : RuleRow =>
          if r.id = row.id ∧ r.chat_id = cid then
            { r with title := title0, text_probability := 1, image_probability := 1,
                     is_system := 1, sort_order := some so }
          else r) := by
  have hfind2 : find_rule_by_key (upsert_chat db cid) cid key = some row := by
    rw [find_rule_by_key_upsert]
    exact hfind
  simp only [ensure_system_rule_interval, hfind2]
  rw [if_pos hcust]
  simp only [insert_pools]
  rw [upsert_chat_rules]

theorem ensure_interval_rules_noncust (db : Db) (cid : Int) (key title0 : String)
    (ivm : Int) (imgs : List ImagePayload) (ebd : Bool) (so now0 : Int)
    (row : RuleRow) (hfind : find_rule_by_key db cid key = some row)
    (hcust : ¬(row.user_customized = 1)) :
    (ensure_system_rule_interval db cid key title0 ivm imgs ebd so now0).1.rules
      = db.rules.map (fun r : RuleRow =>
          if r.id = row.id ∧ r.chat_id = cid then
            { r with title := title0, text_probability := 1, image_probability := 1,
                     is_system := 1, sort_order := some so,
                     interval_minutes := some ivm, enabled := if ebd then 1 else 0 }
          else r) := by
  have hfind2 : find_rule_by_key (upsert_chat db cid) cid key = some row := by
    rw [find_rule_by_key_upsert]
    exact hfind
  simp only [ensure_system_rule_interval, hfind2]
  rw [if_neg hcust]
  simp only [insert_pools]
  rw [upsert_chat_rules, List.map_map]
  congr 1
  funext r
  by_cases hc : r.id = row.id ∧ r.chat_id = cid
  · simp only [Function.comp_apply, if_pos hc]
  · simp only [Function.comp_apply, if_neg hc]

theorem ensure_weekly_rules_new (db : Db) (cid : Int) (key title0 : String)
    (days : List Int) (thh : String) (imgs : List ImagePayload) (ebd : Bool)
    (so now0 : Int) (hfind : find_rule_by_key db cid key = none) :
    (ensure_system_rule_weekly db cid key title0 days thh imgs ebd so now0).1.rules
      = db.rules ++ [new_weekly_rule cid key title0 days thh ebd so now0 db.next_rule_id] := by
  have hfind2 : find_rule_by_key (upsert_chat db cid) cid key = none := by
    rw [find_rule_by_key_upsert]
    exact hfind
  simp only [ensure_system_rule_weekly, hfind2]
  simp only [insert_pools]
  rw [upsert_chat_rules, upsert_chat_next_rule_id]
  rfl

theorem ensure_interval_rules_new (db : Db) (cid : Int) (key title0 : String)
    (ivm : Int) (imgs : List ImagePayload) (ebd : Bool) (so now0 : Int)
    (hfind : find_rule_by_key db cid key = none) :
    (ensure_system_rule_interval db cid key title0 ivm imgs ebd so now0).1.rules
      = db.rules ++ [new_interval_rule cid key title0 ivm ebd so now0 db.next_rule_id] := by
  have hfind2 : find_rule_by_key (upsert_chat db cid) cid key = none := by
    rw [find_rule_by_key_upsert]
    exact hfind
  simp only [ensure_system_rule_interval, hfind2]
  simp only [insert_pools]
  rw [upsert_chat_rules, upsert_chat_next_rule_id]
  rfl

theorem ensure_weekly_next_rule_id (db : Db) (cid : Int) (key title0 : String)
    (days : List Int) (thh : String) (imgs : List ImagePayload) (ebd : Bool)
    (so now0 : Int) :
    (ensure_system_rule_weekly db cid key title0 days thh imgs ebd so now0).1.next_rule_id
      = (if (find_rule_by_key db cid key).isSome then db.next_rule_id
         else db.next_rule_id + 1) := by
  cases hfind : find_rule_by_key (upsert_chat db cid) cid key with
  | some row =>
    have hrow : find_rule_by_key db cid key = some row := by
      rwa [find_rule_by_key_upsert] at hfind
    simp only [ensure_system_rule_weekly, hfind, hrow]
    split <;> simp [insert_pools, upsert_chat_next_rule_id]
  | none =>
    have hrow : find_rule_by_key db cid key = none := by
      rwa [find_rule_by_key_upsert] at hfind
    simp only [ensure_system_rule_weekly, hfind, hrow]
    simp [insert_pools, upsert_chat_next_rule_id]

theorem ensure_interval_next_rule_id (db : Db) (cid : Int) (key title0 : String)
    (ivm : Int) (imgs : List ImagePayload) (ebd : Bool) (so now0 : Int) :
    (ensure_system_rule_interval db cid key title0 ivm imgs ebd so now0).1.next_rule_id
      = (if (find_rule_by_key db cid key).isSome then db.next_rule_id
         else db.next_rule_id + 1) := by
  cases hfind : find_rule_by_key (upsert_chat db cid) cid key with
  | some row =>
    have hrow : find_rule_by_key db cid key = some row := by
      rwa [find_rule_by_key_upsert] at hfind
    simp only [ensure_system_rule_interval, hfind, hrow]
    split <;> simp [insert_pools, upsert_chat_next_rule_id]
  | none =>
    have hrow : find_rule_by_key db cid key = none := by
      rwa [find_rule_by_key_upsert] at hfind
    simp only [ensure_system_rule_interval, hfind, hrow]
    simp [insert_pools, upsert_chat_next_rule_id]

/-- C4: for an existing (chat_id, system_key) row, the ensure operations
always refresh title, the probability fields (to 1), is_system, sort_order
and (weekly) days, replace the option pools with rows mirroring the catalog,
and rewrite time_hhmm/interval_minutes and enabled from the catalog exactly
when user_customized is false — a customized row keeps those two fields. -/
theorem ensure_system_rule_frame :
    ∀ (db : Db) (cid : Int) (key title0 : String) (days : List Int) (thh : String)
      (ivm : Int) (imgs : List ImagePayload) (ebd : Bool) (so now0 : Int) (row : RuleRow),
      find_rule_by_key db cid key = some row →
      ((row.user_customized = 1 →
        (ensure_system_rule_weekly db cid key title0 days thh imgs ebd so now0).1.rules
          = db.rules.map (fun r : RuleRow =>
              if r.id = row.id ∧ r.chat_id = cid then
                { r with title := title0, text_probability := 1, image_probability := 1,
                         is_system := 1, sort_order := some so,
                         days := some (days_string days) }
              else r)
        ∧ (ensure_system_rule_interval db cid key title0 ivm imgs ebd so now0).1.rules
          = db.rules.map (fun r : RuleRow =>
              if r.id = row.id ∧ r.chat_id = cid then
                { r with title := title0, text_probability := 1, image_probability := 1,
                         is_system := 1, sort_order := some so }
              else r))
      ∧ (¬(row.user_customized = 1) →
        (ensure_system_rule_weekly db cid key title0 days thh imgs ebd so now0).1.rules
          = db.rules.map (fun r : RuleRow =>
              if r.id = row.id ∧ r.chat_id = cid then
                { r with title := title0, text_probability := 1, image_probability := 1,
                         is_system := 1, sort_order := some so,
                         days := some (days_string days), time_hhmm := some thh,
                         enabled := if ebd then 1 else 0 }
              else r)
        ∧ (ensure_system_rule_interval db cid key title0 ivm imgs ebd so now0).1.rules
          = db.rules.map (fun r : RuleRow =>
              if r.id = row.id ∧ r.chat_id = cid then
                { r with title := title0, text_probability := 1, image_probability := 1,
                         is_system := 1, sort_order := some so,
                         interval_minutes := some ivm, enabled := if ebd then 1 else 0 }
              else r))
      ∧ ((ensure_system_rule_weekly db cid key title0 days thh imgs ebd so now0).1.image_options
          = db.image_options.filter (fun o => !(decide (o.rule_id = row.id)))
            ++ new_image_rows row.id db.next_image_option_id imgs
        ∧ (ensure_system_rule_weekly db cid key title0 days thh imgs ebd so now0).1.text_options
          = db.text_options.filter (fun o => !(decide (o.rule_id = row.id)))
            ++ new_text_rows row.id db.next_image_option_id db.next_text_option_id imgs
        ∧ (ensure_system_rule_interval db cid key title0 ivm imgs ebd so now0).1.image_options
          = db.image_options.filter (fun o => !(decide (o.rule_id = row.id)))
            ++ new_image_rows row.id db.next_image_option_id imgs
        ∧ (ensure_system_rule_interval db cid key title0 ivm imgs ebd so now0).1.text_options
          = db.text_options.filter (fun o => !(decide (o.rule_id = row.id)))
            ++ new_text_rows row.id db.next_image_option_id db.next_text_option_id imgs)
      ∧ (new_image_rows row.id db.next_image_option_id imgs).map image_row_data
          = imgs.map image_payload_data) := by
  intro db cid key title0 days thh ivm imgs ebd so now0 row hfind
  have hfind2 : find_rule_by_key (upsert_chat db cid) cid key = some row := by
    rw [find_rule_by_key_upsert]
    exact hfind
  refine ⟨?_, ?_, ?_, new_image_rows_data row.id imgs db.next_image_option_id⟩
  · intro hcust
    exact ⟨ensure_weekly_rules_cust db cid key title0 days thh imgs ebd so now0 row hfind hcust,
           ensure_interval_rules_cust db cid key title0 ivm imgs ebd so now0 row hfind hcust⟩
  · intro hcust
    exact ⟨ensure_weekly_rules_noncust db cid key title0 days thh imgs ebd so now0 row hfind hcust,
           ensure_interval_rules_noncust db cid key title0 ivm imgs ebd so now0 row hfind hcust⟩
  · refine ⟨?_, ?_, ?_, ?_⟩ <;>
      (first
        | (simp only [ensure_system_rule_weekly, hfind2]
           split <;>
             simp only [insert_pools, upsert_chat_image_options, upsert_chat_text_options,
               upsert_chat_next_image_option_id, upsert_chat_next_text_option_id])
        | (simp only [ensure_system_rule_interval, hfind2]
           split <;>
             simp only [insert_pools, upsert_chat_image_options, upsert_chat_text_options,
               upsert_chat_next_image_option_id, upsert_chat_next_text_option_id]))

/-- Witness for C4: chat 1's non-customized system rule "k" gets its weekly
schedule and enabled flag rewritten from the catalog. -/
theorem ensure_system_rule_frame_witness :
    find_rule_by_key exDbC2 1 "k" = some (mkRule 1 1 "OLD" (some "k") 1)
    ∧ ¬((mkRule 1 1 "OLD" (some "k") 1).user_customized = 1)
    ∧ (ensure_system_rule_weekly exDbC2 1 "k" "T" [0, 2] "09:30" [] true 4 99).1.rules
        = exDbC2.rules.map (fun r : RuleRow =>
            if r.id = (mkRule 1 1 "OLD" (some "k") 1).id ∧ r.chat_id = 1 then
              { r with title := "T", text_probability := 1, image_probability := 1,
                       is_system := 1, sort_order := some 4,
                       days := some (days_string [0, 2]), time_hhmm := some "09:30",
                       enabled := if (true : Bool) then 1 else 0 }
            else r) := by
  refine ⟨by decide, by decide, ?_⟩
  exact ((ensure_system_rule_frame exDbC2 1 "k" "T" [0, 2] "09:30" 15 [] true 4 99
    (mkRule 1 1 "OLD" (some "k") 1) (by decide)).2.1 (by decide)).1

/-! ## Sync lemmas shared by claims C3 and C5 -/

theorem delete_rules_where_rules (db : Db) (p : RuleRow → Bool) :
    (delete_rules_where db p).rules = db.rules.filter (fun r => !(p r)) := rfl

theorem delete_rules_where_chats (db : Db) (p : RuleRow → Bool) :
    (delete_rules_where db p).chats = db.chats := rfl

theorem delete_rules_where_next_rule_id (db : Db) (p : RuleRow → Bool) :
    (delete_rules_where db p).next_rule_id = db.next_rule_id := rfl

theorem delete_rules_where_id (db : Db) (p : RuleRow → Bool)
    (h : ∀ r ∈ db.rules, p r = false) : delete_rules_where db p = db := by
  have hfil : db.rules.filter p = [] := by
    rw [List.filter_eq_nil_iff]
    intro r hr
    simp [h r hr]
  cases db with
  | mk chats rules image_options text_options n1 n2 n3 =>
    simp only [delete_rules_where] at *
    rw [hfil]
    simp only [List.map_nil]
    have h1 : rules.filter (fun r => !(p r)) = rules := by
      rw [List.filter_eq_self]
      intro a ha
      simp [h a ha]
    have h2 : image_options.filter (fun o => !(([] : List Nat).contains o.rule_id))
        = image_options := by
      rw [List.filter_eq_self]
      intro a _
      rfl
    have h3 : text_options.filter (fun o => !(([] : List Nat).contains o.rule_id))
        = text_options := by
      rw [List.filter_eq_self]
      intro a _
      rfl
    rw [h1, h2, h3]

theorem cleanup_empty (db : Db) (cid : Int) :
    cleanup_stale_system_rules db cid [] = (db, []) := rfl

theorem cleanup_rules (db : Db) (cid : Int) (keys : List String) (hk : keys ≠ []) :
    (cleanup_stale_system_rules db cid keys).1.rules
      = db.rules.filter (fun r => !(stalePred cid keys r) && !(orphanPred cid r)) := by
  have hke : keys.isEmpty = false := by
    cases keys with
    | nil => exact absurd rfl hk
    | cons x xs => rfl
  simp only [cleanup_stale_system_rules, hke, Bool.false_eq_true, if_false,
    delete_rules_where_rules, List.filter_filter]

theorem cleanup_removed (db : Db) (cid : Int) (keys : List String) (hk : keys ≠ []) :
    (cleanup_stale_system_rules db cid keys).2
      = (db.rules.filter (fun r => stalePred cid keys r && !(orphanPred cid r))).map
          (fun r => display_title r.title) := by
  have hke : keys.isEmpty = false := by
    cases keys with
    | nil => exact absurd rfl hk
    | cons x xs => rfl
  simp only [cleanup_stale_system_rules, hke, Bool.false_eq_true, if_false,
    delete_rules_where_rules, List.filter_filter]

theorem keyedStale_eq (cid : Int) (keys : List String) (r : RuleRow) :
    (stalePred cid keys r && !(orphanPred cid r)) = keyedStale cid keys r := by
  cases hsk : r.system_key with
  | none =>
    simp [stalePred, orphanPred, keyedStale, hsk]
  | some k =>
    simp only [stalePred, orphanPred, keyedStale, hsk, is_blank_key]
    cases hA : decide (r.chat_id = cid) <;>
      cases hB : decide (r.is_system = 1) <;>
        cases hC : decide (py_strip k = "") <;>
          cases hD : keys.contains k <;> rfl

theorem isSome_map_local {α β : Type} (f : α → β) (o : Option α) :
    (o.map f).isSome = o.isSome := by
  cases o <;> rfl

theorem isSome_or_local {α : Type} (o o2 : Option α) :
    (o.or o2).isSome = (o.isSome || o2.isSome) := by
  cases o <;> rfl

theorem find_isSome_map_preserve (c2 : Int) (k2 : String) (f : RuleRow → RuleRow)
    (hf : ∀ r, (f r).chat_id = r.chat_id ∧ (f r).system_key = r.system_key)
    (l : List RuleRow) :
    (List.find? (fun r : RuleRow => decide (r.chat_id = c2 ∧ r.system_key = some k2))
        (l.map f)).isSome
      = (List.find? (fun r : RuleRow =>
          decide (r.chat_id = c2 ∧ r.system_key = some k2)) l).isSome := by
  rw [List.find?_map]
  have hext : ∀ a ∈ l,
      ((fun r : RuleRow => decide (r.chat_id = c2 ∧ r.system_key = some k2)) ∘ f) a
        = (fun r : RuleRow => decide (r.chat_id = c2 ∧ r.system_key = some k2)) a := by
    intro a _
    simp [Function.comp, (hf a).1, (hf a).2]
  rw [find?_ext _ _ l hext, isSome_map_local]

theorem rhs_or_absorb (db : Db) (cid c2 : Int) (key k2 : String) (row : RuleRow)
    (hfind : find_rule_by_key db cid key = some row) :
    ((find_rule_by_key db c2 k2).isSome || (decide (c2 = cid) && decide (k2 = key)))
      = (find_rule_by_key db c2 k2).isSome := by
  by_cases hb : c2 = cid ∧ k2 = key
  · obtain ⟨h1, h2⟩ := hb
    subst h1
    subst h2
    rw [hfind]
    simp
  · have hbf : (decide (c2 = cid) && decide (k2 = key)) = false := by
      rcases not_and_or.mp hb with h | h <;> simp [h]
    rw [hbf, Bool.or_false]

theorem new_rule_singleton_isSome (c2 cid : Int) (k2 key : String) (x : RuleRow)
    (hx1 : x.chat_id = cid) (hx2 : x.system_key = some key) :
    (List.find? (fun r : RuleRow =>
        decide (r.chat_id = c2 ∧ r.system_key = some k2)) [x]).isSome
      = (decide (c2 = cid) && decide (k2 = key)) := by
  rw [List.find?_singleton]
  by_cases hb : c2 = cid ∧ k2 = key
  · obtain ⟨h1, h2⟩ := hb
    subst h1
    subst h2
    simp [hx1, hx2]
  · have hbf : ¬(x.chat_id = c2 ∧ x.system_key = some k2) := by
      intro hc
      refine hb ⟨?_, ?_⟩
      · rw [← hc.1, hx1]
      · have := hc.2
        rw [hx2] at this
        injection this with h
        exact h.symm
    rcases not_and_or.mp hb with h | h <;> simp [hbf, h]

theorem ensure_weekly_find_isSome (db : Db) (cid : Int) (key title0 : String)
    (days : List Int) (thh : String) (imgs : List ImagePayload) (ebd : Bool)
    (so now0 : Int) (c2 : Int) (k2 : String) :
    (find_rule_by_key
        (ensure_system_rule_weekly db cid key title0 days thh imgs ebd so now0).1 c2 k2).isSome
      = ((find_rule_by_key db c2 k2).isSome || (decide (c2 = cid) && decide (k2 = key))) := by
  cases hfind : find_rule_by_key db cid key with
  | some row =>
    rw [rhs_or_absorb db cid c2 key k2 row hfind]
    by_cases hcust : row.user_customized = 1
    · rw [find_rule_by_key,
        ensure_weekly_rules_cust db cid key title0 days thh imgs ebd so now0 row hfind hcust,
        find_isSome_map_preserve]
      · rfl
      · intro r
        by_cases hc : r.id = row.id ∧ r.chat_id = cid <;> simp [hc]
    · rw [find_rule_by_key,
        ensure_weekly_rules_noncust db cid key title0 days thh imgs ebd so now0 row hfind hcust,
        find_isSome_map_preserve]
      · rfl
      · intro r
        by_cases hc : r.id = row.id ∧ r.chat_id = cid <;> simp [hc]
  | none =>
    rw [find_rule_by_key,
      ensure_weekly_rules_new db cid key title0 days thh imgs ebd so now0 hfind,
      List.find?_append, isSome_or_local]
    congr 1
    exact new_rule_singleton_isSome c2 cid k2 key _ rfl rfl

theorem ensure_interval_find_isSome (db : Db) (cid : Int) (key title0 : String)
    (ivm : Int) (imgs : List ImagePayload) (ebd : Bool) (so now0 : Int)
    (c2 : Int) (k2 : String) :
    (find_rule_by_key
        (ensure_system_rule_interval db cid key title0 ivm imgs ebd so now0).1 c2 k2).isSome
      = ((find_rule_by_key db c2 k2).isSome || (decide (c2 = cid) && decide (k2 = key))) := by
  cases hfind : find_rule_by_key db cid key with
  | some row =>
    rw [rhs_or_absorb db cid c2 key k2 row hfind]
    by_cases hcust : row.user_customized = 1
    · rw [find_rule_by_key,
        ensure_interval_rules_cust db cid key title0 ivm imgs ebd so now0 row hfind hcust,
        find_isSome_map_preserve]
      · rfl
      · intro r
        by_cases hc : r.id = row.id ∧ r.chat_id = cid <;> simp [hc]
    · rw [find_rule_by_key,
        ensure_interval_rules_noncust db cid key title0 ivm imgs ebd so now0 row hfind hcust,
        find_isSome_map_preserve]
      · rfl
      · intro r
        by_cases hc : r.id = row.id ∧ r.chat_id = cid <;> simp [hc]
  | none =>
    rw [find_rule_by_key,
      ensure_interval_rules_new db cid key title0 ivm imgs ebd so now0 hfind,
      List.find?_append, isSome_or_local]
    congr 1
    exact new_rule_singleton_isSome c2 cid k2 key _ rfl rfl

theorem ids_ok_map (db db2 : Db) (f : RuleRow → RuleRow)
    (hr : db2.rules = db.rules.map f) (hn : db2.next_rule_id = db.next_rule_id)
    (hf : ∀ r, (f r).id = r.id) (hids : RuleIdsOk db) : RuleIdsOk db2 := by
  constructor
  · rw [hr, List.map_map]
    have hcomp : ((fun r : RuleRow => r.id) ∘ f) = (fun r : RuleRow => r.id) :=
      funext fun r => hf r
    rw [hcomp]
    exact hids.1
  · intro r2 h2
    rw [hr] at h2
    obtain ⟨r, hrm, rfl⟩ := List.mem_map.mp h2
    rw [hn, hf r]
    exact hids.2 r hrm

theorem ids_ok_append (db db2 : Db) (x : RuleRow)
    (hr : db2.rules = db.rules ++ [x]) (hn : db2.next_rule_id = db.next_rule_id + 1)
    (hx : x.id = db.next_rule_id) (hids : RuleIdsOk db) : RuleIdsOk db2 := by
  constructor
  · rw [hr, List.map_append, List.nodup_append]
    refine ⟨hids.1, by simp, ?_⟩
    intro a ha hb
    simp only [List.map_cons, List.map_nil, List.mem_singleton] at hb
    obtain ⟨r, hrm, rfl⟩ := List.mem_map.mp ha
    have := hids.2 r hrm
    omega
  · intro r2 h2
    rw [hr] at h2
    rcases List.mem_append.mp h2 with h | h
    · have := hids.2 r2 h
      omega
    · simp only [List.mem_singleton] at h
      subst h
      omega

theorem ensure_weekly_preserves_ids (db : Db) (cid : Int) (key title0 : String)
    (days : List Int) (thh : String) (imgs : List ImagePayload) (ebd : Bool)
    (so now0 : Int) (hids : RuleIdsOk db) :
    RuleIdsOk (ensure_system_rule_weekly db cid key title0 days thh imgs ebd so now0).1 := by
  cases hfind : find_rule_by_key db cid key with
  | some row =>
    have hnext : (ensure_system_rule_weekly db cid key title0 days thh imgs
        ebd so now0).1.next_rule_id = db.next_rule_id := by
      rw [ensure_weekly_next_rule_id, hfind]
      rfl
    by_cases hcust : row.user_customized = 1
    · refine ids_ok_map db _ _ (ensure_weekly_rules_cust db cid key title0 days thh
        imgs ebd so now0 row hfind hcust) hnext ?_ hids
      intro r
      by_cases hc : r.id = row.id ∧ r.chat_id = cid <;> simp [hc]
    · refine ids_ok_map db _ _ (ensure_weekly_rules_noncust db cid key title0 days thh
        imgs ebd so now0 row hfind hcust) hnext ?_ hids
      intro r
      by_cases hc : r.id = row.id ∧ r.chat_id = cid <;> simp [hc]
  | none =>
    have hnext : (ensure_system_rule_weekly db cid key title0 days thh imgs
        ebd so now0).1.next_rule_id = db.next_rule_id + 1 := by
      rw [ensure_weekly_next_rule_id, hfind]
      rfl
    exact ids_ok_append db _ _ (ensure_weekly_rules_new db cid key title0 days thh
      imgs ebd so now0 hfind) hnext rfl hids

theorem ensure_interval_preserves_ids (db : Db) (cid : Int) (key title0 : String)
    (ivm : Int) (imgs : List ImagePayload) (ebd : Bool) (so now0 : Int)
    (hids : RuleIdsOk db) :
    RuleIdsOk (ensure_system_rule_interval db cid key title0 ivm imgs ebd so now0).1 := by
  cases hfind : find_rule_by_key db cid key with
  | some row =>
    have hnext : (ensure_system_rule_interval db cid key title0 ivm imgs
        ebd so now0).1.next_rule_id = db.next_rule_id := by
      rw [ensure_interval_next_rule_id, hfind]
      rfl
    by_cases hcust : row.user_customized = 1
    · refine ids_ok_map db _ _ (ensure_interval_rules_cust db cid key title0 ivm
        imgs ebd so now0 row hfind hcust) hnext ?_ hids
      intro r
      by_cases hc : r.id = row.id ∧ r.chat_id = cid <;> simp [hc]
    · refine ids_ok_map db _ _ (ensure_interval_rules_noncust db cid key title0 ivm
        imgs ebd so now0 row hfind hcust) hnext ?_ hids
      intro r
      by_cases hc : r.id = row.id ∧ r.chat_id = cid <;> simp [hc]
  | none =>
    have hnext : (ensure_system_rule_interval db cid key title0 ivm imgs
        ebd so now0).1.next_rule_id = db.next_rule_id + 1 := by
      rw [ensure_interval_next_rule_id, hfind]
      rfl
    exact ids_ok_append db _ _ (ensure_interval_rules_new db cid key title0 ivm
      imgs ebd so now0 hfind) hnext rfl hids

theorem good_chat_map (db db2 : Db) (cid : Int) (keys : List String)
    (key : String) (row : RuleRow) (f : RuleRow → RuleRow)
    (hr : db2.rules = db.rules.map f)
    (hrmem : row ∈ db.rules) (hrkey : row.system_key = some key)
    (hkmem : key ∈ keys) (hknb : py_strip key ≠ "")
    (hcond : ∀ r, (¬(r.id = row.id ∧ r.chat_id = cid) → f r = r)
      ∧ ((r.id = row.id ∧ r.chat_id = cid) →
          (f r).system_key = r.system_key ∧ (f r).chat_id = r.chat_id))
    (hids : RuleIdsOk db) (hgood : GoodChat cid keys db) : GoodChat cid keys db2 := by
  intro r2 h2 hchat hsys
  rw [hr] at h2
  obtain ⟨r, hrm, rfl⟩ := List.mem_map.mp h2
  by_cases hc : r.id = row.id ∧ r.chat_id = cid
  · have hreq : r = row := List.inj_on_of_nodup_map hids.1 hrm hrmem hc.1
    obtain ⟨hk, _⟩ := (hcond r).2 hc
    refine ⟨key, ?_, hknb, hkmem⟩
    rw [hk, hreq, hrkey]
  · rw [(hcond r).1 hc] at hchat hsys ⊢
    exact hgood r hrm hchat hsys

theorem ensure_weekly_preserves_good (db : Db) (cid : Int) (key title0 : String)
    (days : List Int) (thh : String) (imgs : List ImagePayload) (ebd : Bool)
    (so now0 : Int) (keys : List String) (hids : RuleIdsOk db)
    (hkmem : key ∈ keys) (hknb : py_strip key ≠ "")
    (hgood : GoodChat cid keys db) :
    GoodChat cid keys (ensure_system_rule_weekly db cid key title0 days thh imgs ebd so now0).1 := by
  cases hfind : find_rule_by_key db cid key with
  | some row =>
    have hrmem : row ∈ db.rules := List.mem_of_find?_eq_some hfind
    have hrkey : row.system_key = some key := by
      have := List.find?_some hfind
      simp only [decide_eq_true_eq] at this
      exact this.2
    by_cases hcust : row.user_customized = 1
    · refine good_chat_map db _ cid keys key row _
        (ensure_weekly_rules_cust db cid key title0 days thh imgs ebd so now0 row hfind hcust)
        hrmem hrkey hkmem hknb ?_ hids hgood
      intro r
      constructor
      · intro hc
        simp [hc]
      · intro hc
        simp [hc]
    · refine good_chat_map db _ cid keys key row _
        (ensure_weekly_rules_noncust db cid key title0 days thh imgs ebd so now0 row hfind hcust)
        hrmem hrkey hkmem hknb ?_ hids hgood
      intro r
      constructor
      · intro hc
        simp [hc]
      · intro hc
        simp [hc]
  | none =>
    intro r2 h2 hchat hsys
    rw [ensure_weekly_rules_new db cid key title0 days thh imgs ebd so now0 hfind] at h2
    rcases List.mem_append.mp h2 with h | h
    · exact hgood r2 h hchat hsys
    · simp only [List.mem_singleton] at h
      subst h
      exact ⟨key, rfl, hknb, hkmem⟩

theorem ensure_interval_preserves_good (db : Db) (cid : Int) (key title0 : String)
    (ivm : Int) (imgs : List ImagePayload) (ebd : Bool) (so now0 : Int)
    (keys : List String) (hids : RuleIdsOk db)
    (hkmem : key ∈ keys) (hknb : py_strip key ≠ "")
    (hgood : GoodChat cid keys db) :
    GoodChat cid keys (ensure_system_rule_interval db cid key title0 ivm imgs ebd so now0).1 := by
  cases hfind : find_rule_by_key db cid key with
  | some row =>
    have hrmem : row ∈ db.rules := List.mem_of_find?_eq_some hfind
    have hrkey : row.system_key = some key := by
      have := List.find?_some hfind
      simp only [decide_eq_true_eq] at this
      exact this.2
    by_cases hcust : row.user_customized = 1
    · refine good_chat_map db _ cid keys key row _
        (ensure_interval_rules_cust db cid key title0 ivm imgs ebd so now0 row hfind hcust)
        hrmem hrkey hkmem hknb ?_ hids hgood
      intro r
      constructor
      · intro hc
        simp [hc]
      · intro hc
        simp [hc]
    · refine good_chat_map db _ cid keys key row _
        (ensure_interval_rules_noncust db cid key title0 ivm imgs ebd so now0 row hfind hcust)
        hrmem hrkey hkmem hknb ?_ hids hgood
      intro r
      constructor
      · intro hc
        simp [hc]
      · intro hc
        simp [hc]
  | none =>
    intro r2 h2 hchat hsys
    rw [ensure_interval_rules_new db cid key title0 ivm imgs ebd so now0 hfind] at h2
    rcases List.mem_append.mp h2 with h | h
    · exact hgood r2 h hchat hsys
    · simp only [List.mem_singleton] at h
      subst h
      exact ⟨key, rfl, hknb, hkmem⟩

theorem sync_apply_find_mono (cid : Int) (now0 : Int) (k : String) :
    ∀ (entries : List (Nat × SystemRuleC)) (db : Db) (acc : List String),
      (find_rule_by_key db cid k).isSome = true →
      (find_rule_by_key (sync_apply cid now0 entries db acc).1 cid k).isSome = true := by
  intro entries
  induction entries with
  | nil => intro db acc h; simpa [sync_apply] using h
  | cons e rest ih =>
    intro db acc h
    obtain ⟨idx, r⟩ := e
    simp only [sync_apply]
    by_cases hkind : r.kind = "weekly"
    · rw [if_pos hkind]
      apply ih
      rw [ensure_weekly_find_isSome, h, Bool.true_or]
    · rw [if_neg hkind]
      apply ih
      rw [ensure_interval_find_isSome, h, Bool.true_or]

theorem sync_apply_key_exists (cid : Int) (now0 : Int) :
    ∀ (entries : List (Nat × SystemRuleC)) (db : Db) (acc : List String),
      ∀ e ∈ entries,
        (find_rule_by_key (sync_apply cid now0 entries db acc).1 cid
          e.2.system_key).isSome = true := by
  intro entries
  induction entries with
  | nil => intro db acc e he; simp at he
  | cons hd rest ih =>
    intro db acc e he
    obtain ⟨idx, r⟩ := hd
    rcases List.mem_cons.mp he with rfl | hmem
    · simp only [sync_apply]
      by_cases hkind : r.kind = "weekly"
      · rw [if_pos hkind]
        apply sync_apply_find_mono
        rw [ensure_weekly_find_isSome]
        simp
      · rw [if_neg hkind]
        apply sync_apply_find_mono
        rw [ensure_interval_find_isSome]
        simp
    · simp only [sync_apply]
      by_cases hkind : r.kind = "weekly"
      · rw [if_pos hkind]
        exact ih _ _ e hmem
      · rw [if_neg hkind]
        exact ih _ _ e hmem

theorem sync_apply_added_nil (cid : Int) (now0 : Int) :
    ∀ (entries : List (Nat × SystemRuleC)) (db : Db) (acc : List String),
      (∀ e ∈ entries, (find_rule_by_key db cid e.2.system_key).isSome = true) →
      (sync_apply cid now0 entries db acc).2 = acc := by
  intro entries
  induction entries with
  | nil => intro db acc _; rfl
  | cons hd rest ih =>
    intro db acc hall
    obtain ⟨idx, r⟩ := hd
    have hhd : (find_rule_by_key db cid r.system_key).isSome = true :=
      hall (idx, r) (List.mem_cons_self _ _)
    simp only [sync_apply, hhd, if_true]
    by_cases hkind : r.kind = "weekly"
    · rw [if_pos hkind]
      apply ih
      intro e he
      rw [ensure_weekly_find_isSome, hall e (List.mem_cons_of_mem _ he), Bool.true_or]
    · rw [if_neg hkind]
      apply ih
      intro e he
      rw [ensure_interval_find_isSome, hall e (List.mem_cons_of_mem _ he), Bool.true_or]

theorem sync_apply_added_chars (cid : Int) (now0 : Int) :
    ∀ (entries : List (Nat × SystemRuleC)) (db : Db) (acc : List String),
      ((entries.map (fun e : Nat × SystemRuleC => e.2.system_key)).Nodup) →
      (sync_apply cid now0 entries db acc).2
        = acc ++ (entries.filter
            (fun e => !(find_rule_by_key db cid e.2.system_key).isSome)).map
            (fun e => e.2.title) := by
  intro entries
  induction entries with
  | nil => intro db acc _; simp [sync_apply]
  | cons hd rest ih =>
    intro db acc hnd
    obtain ⟨idx, r⟩ := hd
    rw [List.map_cons, List.nodup_cons] at hnd
    have hfeq : ∀ (db1 : Db),
        (∀ k2, (find_rule_by_key db1 cid k2).isSome
          = ((find_rule_by_key db cid k2).isSome
             || (decide (cid = cid) && decide (k2 = r.system_key)))) →
        ∀ e ∈ rest,
          (!(find_rule_by_key db1 cid e.2.system_key).isSome)
            = (!(find_rule_by_key db cid e.2.system_key).isSome) := by
      intro db1 hiso e he
      rw [hiso e.2.system_key]
      have hne : e.2.system_key ≠ r.system_key := by
        intro hx
        exact hnd.1 (hx ▸ List.mem_map_of_mem (fun e : Nat × SystemRuleC => e.2.system_key) he)
      simp [hne]
    simp only [sync_apply]
    by_cases hkind : r.kind = "weekly"
    · rw [if_pos hkind]
      rw [ih _ _ hnd.2]
      rw [List.filter_congr (hfeq _ (fun k2 => ensure_weekly_find_isSome db cid
        r.system_key r.title r.days r.time_hhmm r.images r.enabled_by_default
        (Int.ofNat idx) now0 cid k2))]
      rw [List.filter_cons]
      by_cases hex : (find_rule_by_key db cid r.system_key).isSome = true
      · simp [hex]
      · simp only [Bool.not_eq_true] at hex
        simp [hex]
    · rw [if_neg hkind]
      rw [ih _ _ hnd.2]
      rw [List.filter_congr (hfeq _ (fun k2 => ensure_interval_find_isSome db cid
        r.system_key r.title r.interval_minutes r.images r.enabled_by_default
        (Int.ofNat idx) now0 cid k2))]
      rw [List.filter_cons]
      by_cases hex : (find_rule_by_key db cid r.system_key).isSome = true
      · simp [hex]
      · simp only [Bool.not_eq_true] at hex
        simp [hex]

theorem sync_apply_preserves_ids (cid : Int) (now0 : Int) :
    ∀ (entries : List (Nat × SystemRuleC)) (db : Db) (acc : List String),
      RuleIdsOk db → RuleIdsOk (sync_apply cid now0 entries db acc).1 := by
  intro entries
  induction entries with
  | nil => intro db acc h; simpa [sync_apply] using h
  | cons hd rest ih =>
    intro db acc h
    obtain ⟨idx, r⟩ := hd
    simp only [sync_apply]
    by_cases hkind : r.kind = "weekly"
    · rw [if_pos hkind]
      exact ih _ _ (ensure_weekly_preserves_ids _ _ _ _ _ _ _ _ _ _ h)
    · rw [if_neg hkind]
      exact ih _ _ (ensure_interval_preserves_ids _ _ _ _ _ _ _ _ _ h)

theorem sync_apply_preserves_good (cid : Int) (now0 : Int) (keys : List String) :
    ∀ (entries : List (Nat × SystemRuleC)) (db : Db) (acc : List String),
      RuleIdsOk db →
      (∀ e ∈ entries, e.2.system_key ∈ keys ∧ py_strip e.2.system_key ≠ "") →
      GoodChat cid keys db → GoodChat cid keys (sync_apply cid now0 entries db acc).1 := by
  intro entries
  induction entries with
  | nil => intro db acc _ _ hg; simpa [sync_apply] using hg
  | cons hd rest ih =>
    intro db acc hids hvalid hg
    obtain ⟨idx, r⟩ := hd
    have hv := hvalid (idx, r) (List.mem_cons_self _ _)
    simp only [sync_apply]
    by_cases hkind : r.kind = "weekly"
    · rw [if_pos hkind]
      exact ih _ _ (ensure_weekly_preserves_ids _ _ _ _ _ _ _ _ _ _ hids)
        (fun e he => hvalid e (List.mem_cons_of_mem _ he))
        (ensure_weekly_preserves_good _ _ _ _ _ _ _ _ _ _ _ hids hv.1 hv.2 hg)
    · rw [if_neg hkind]
      exact ih _ _ (ensure_interval_preserves_ids _ _ _ _ _ _ _ _ _ hids)
        (fun e he => hvalid e (List.mem_cons_of_mem _ he))
        (ensure_interval_preserves_good _ _ _ _ _ _ _ _ _ _ hids hv.1 hv.2 hg)

theorem cleanup_next_rule_id (db : Db) (cid : Int) (keys : List String) :
    (cleanup_stale_system_rules db cid keys).1.next_rule_id = db.next_rule_id := by
  by_cases hk : keys.isEmpty
  · simp [cleanup_stale_system_rules, hk]
  · simp [cleanup_stale_system_rules, hk, delete_rules_where_next_rule_id]

theorem cleanup_preserves_ids (db : Db) (cid : Int) (keys : List String)
    (hids : RuleIdsOk db) : RuleIdsOk (cleanup_stale_system_rules db cid keys).1 := by
  by_cases hk : keys = []
  · subst hk
    rw [cleanup_empty]
    exact hids
  · constructor
    · rw [cleanup_rules db cid keys hk]
      exact hids.1.sublist ((List.filter_sublist _).map _)
    · intro r hr
      rw [cleanup_rules db cid keys hk] at hr
      rw [cleanup_next_rule_id]
      exact hids.2 r (List.mem_filter.mp hr).1

theorem cleanup_good (db : Db) (cid : Int) (keys : List String) (hk : keys ≠ []) :
    GoodChat cid keys (cleanup_stale_system_rules db cid keys).1 := by
  intro r hr hchat hsys
  rw [cleanup_rules db cid keys hk] at hr
  have hpred := (List.mem_filter.mp hr).2
  simp only [Bool.and_eq_true, Bool.not_eq_true] at hpred
  obtain ⟨hstale, horphan⟩ := hpred
  cases hsk : r.system_key with
  | none =>
    exfalso
    rw [orphanPred, hsk] at horphan
    simp [hchat, hsys, is_blank_key] at horphan
  | some k =>
    refine ⟨k, rfl, ?_, ?_⟩
    · intro hblank
      rw [orphanPred, hsk] at horphan
      simp [hchat, hsys, is_blank_key, hblank] at horphan
    · rw [stalePred, hsk] at hstale
      have hc1 : decide (r.chat_id = cid) = true := by simp [hchat]
      have hc2 : decide (r.is_system = 1) = true := by simp [hsys]
      rw [hc1, hc2] at hstale
      simpa using hstale

theorem cleanup_find_isSome (db : Db) (cid : Int) (keys : List String) (k : String)
    (hkmem : k ∈ keys) (hknb : py_strip k ≠ "") :
    (find_rule_by_key (cleanup_stale_system_rules db cid keys).1 cid k).isSome
      = (find_rule_by_key db cid k).isSome := by
  by_cases hk : keys = []
  · subst hk
    rw [cleanup_empty]
  · rw [find_rule_by_key, find_rule_by_key, cleanup_rules db cid keys hk]
    cases hfind : List.find? (fun r : RuleRow =>
        decide (r.chat_id = cid ∧ r.system_key = some k)) db.rules with
    | none =>
      rw [List.find?_eq_none] at hfind
      have : List.find? (fun r : RuleRow =>
          decide (r.chat_id = cid ∧ r.system_key = some k))
          (db.rules.filter (fun r => !(stalePred cid keys r) && !(orphanPred cid r))) = none := by
        rw [List.find?_eq_none]
        intro x hx
        exact hfind x (List.mem_filter.mp hx).1
      rw [this]
    | some row =>
      have hrmem : row ∈ db.rules := List.mem_of_find?_eq_some hfind
      have hrp := List.find?_some hfind
      simp only [decide_eq_true_eq] at hrp
      have hkeep : row ∈ db.rules.filter
          (fun r => !(stalePred cid keys r) && !(orphanPred cid r)) := by
        refine List.mem_filter.mpr ⟨hrmem, ?_⟩
        have h1 : stalePred cid keys row = false := by
          rw [stalePred, hrp.2]
          simp [hkmem]
        have h2 : orphanPred cid row = false := by
          rw [orphanPred, hrp.2]
          simp [is_blank_key, hknb]
        simp [h1, h2]
      have : (List.find? (fun r : RuleRow =>
          decide (r.chat_id = cid ∧ r.system_key = some k))
          (db.rules.filter (fun r => !(stalePred cid keys r) && !(orphanPred cid r)))).isSome
            = true := by
        rw [List.find?_isSome]
        exact ⟨row, hkeep, by simp [hrp.1, hrp.2]⟩
      rw [this]
      rfl

theorem good_implies_no_keyedStale (db : Db) (cid : Int) (keys : List String)
    (hgood : GoodChat cid keys db) :
    ∀ r ∈ db.rules, keyedStale cid keys r = false := by
  intro r hr
  by_cases hchat : r.chat_id = cid
  · by_cases hsys : r.is_system = 1
    · obtain ⟨k, hk, hnb, hmem⟩ := hgood r hr hchat hsys
      rw [keyedStale, hk]
      simp [hmem]
    · rw [keyedStale]
      simp [hsys]
  · rw [keyedStale]
    simp [hchat]

theorem configured_ne_nil (catalog : List SystemRuleC) (hvalid : ValidCatalog catalog)
    (hne : catalog ≠ []) : configured_of catalog ≠ [] := by
  cases catalog with
  | nil => exact absurd rfl hne
  | cons e0 rest =>
    have h0 := hvalid e0 (List.mem_cons_self _ _)
    have : e0.system_key ∈ configured_of (e0 :: rest) := by
      refine List.mem_filter.mpr ⟨?_, by simp [h0.1]⟩
      exact List.mem_map_of_mem _ (List.mem_cons_self _ _)
    exact List.ne_nil_of_mem this

theorem mem_catalog_key_valid (catalog : List SystemRuleC) (hvalid : ValidCatalog catalog)
    (e : SystemRuleC) (he : e ∈ catalog) :
    e.system_key ∈ configured_of catalog ∧ py_strip e.system_key ≠ "" := by
  have h := hvalid e he
  constructor
  · exact List.mem_filter.mpr ⟨List.mem_map_of_mem _ he, by simp [h.1]⟩
  · rw [h.2]
    exact h.1

theorem enum_snd_mem (catalog : List SystemRuleC) (e : Nat × SystemRuleC)
    (he : e ∈ catalog.enum) : e.2 ∈ catalog := by
  have := List.mem_map_of_mem Prod.snd he
  rwa [List.enum_map_snd] at this

theorem sync_result_decompose (db : Db) (cid : Int) (catalog : List SystemRuleC)
    (now0 : Int) :
    sync_system_rules_for_chat db cid catalog now0
      = ((sync_apply cid now0 catalog.enum
            (cleanup_stale_system_rules db cid (configured_of catalog)).1 []).1,
         ⟨(sync_apply cid now0 catalog.enum
            (cleanup_stale_system_rules db cid (configured_of catalog)).1 []).2,
          (cleanup_stale_system_rules db cid (configured_of catalog)).2⟩) := rfl

theorem sync_preserves_ids (db : Db) (cid : Int) (catalog : List SystemRuleC)
    (now0 : Int) (hids : RuleIdsOk db) :
    RuleIdsOk (sync_system_rules_for_chat db cid catalog now0).1 := by
  rw [sync_result_decompose]
  exact sync_apply_preserves_ids cid now0 catalog.enum _ []
    (cleanup_preserves_ids db cid _ hids)

theorem sync_good (db : Db) (cid : Int) (catalog : List SystemRuleC) (now0 : Int)
    (hids : RuleIdsOk db) (hvalid : ValidCatalog catalog) (hne : catalog ≠ []) :
    GoodChat cid (configured_of catalog) (sync_system_rules_for_chat db cid catalog now0).1 := by
  rw [sync_result_decompose]
  refine sync_apply_preserves_good cid now0 (configured_of catalog) catalog.enum _ []
    (cleanup_preserves_ids db cid _ hids) ?_
    (cleanup_good db cid _ (configured_ne_nil catalog hvalid hne))
  intro e he
  exact mem_catalog_key_valid catalog hvalid e.2 (enum_snd_mem catalog e he)

theorem sync_key_exists_catalog (db : Db) (cid : Int) (catalog : List SystemRuleC)
    (now0 : Int) (e : SystemRuleC) (he : e ∈ catalog) :
    (find_rule_by_key (sync_system_rules_for_chat db cid catalog now0).1 cid
      e.system_key).isSome = true := by
  rw [sync_result_decompose]
  have : e ∈ List.map Prod.snd catalog.enum := by
    rw [List.enum_map_snd]
    exact he
  obtain ⟨pr, hpr, hpe⟩ := List.mem_map.mp this
  have := sync_apply_key_exists cid now0 catalog.enum
    (cleanup_stale_system_rules db cid (configured_of catalog)).1 [] pr hpr
  rwa [hpe] at this

theorem enum_filter_map (catalog : List SystemRuleC) (p : SystemRuleC → Bool)
    (t : SystemRuleC → String) :
    (catalog.enum.filter (fun e => p e.2)).map (fun e => t e.2)
      = (catalog.filter p).map t := by
  have h1 : (fun e : Nat × SystemRuleC => p e.2) = (p ∘ Prod.snd) := rfl
  have h2 : (fun e : Nat × SystemRuleC => t e.2) = (t ∘ Prod.snd) := rfl
  rw [h1, h2, ← List.map_map, ← List.filter_map, List.enum_map_snd]

theorem enum_keys_nodup (catalog : List SystemRuleC)
    (h : (catalog.map (fun e => e.system_key)).Nodup) :
    (catalog.enum.map (fun e : Nat × SystemRuleC => e.2.system_key)).Nodup := by
  have heq : (catalog.enum.map (fun e : Nat × SystemRuleC => e.2.system_key))
      = catalog.map (fun e => e.system_key) := by
    have h1 : (fun e : Nat × SystemRuleC => e.2.system_key)
        = ((fun e : SystemRuleC => e.system_key) ∘ Prod.snd) := rfl
    rw [h1, ← List.map_map, List.enum_map_snd]
  rw [heq]
  exact h

theorem sync_added_chars (db : Db) (cid : Int) (catalog : List SystemRuleC)
    (now0 : Int) (hvalid : ValidCatalog catalog)
    (hnd : (catalog.map (fun e => e.system_key)).Nodup) :
    (sync_system_rules_for_chat db cid catalog now0).2.added
      = (catalog.filter (fun e => !(find_rule_by_key db cid e.system_key).isSome)).map
          (fun e => e.title) := by
  rw [sync_result_decompose]
  dsimp only
  rw [sync_apply_added_chars cid now0 catalog.enum _ [] (enum_keys_nodup catalog hnd),
    List.nil_append]
  have hcong : ∀ e ∈ catalog.enum,
      (!(find_rule_by_key (cleanup_stale_system_rules db cid (configured_of catalog)).1
          cid e.2.system_key).isSome)
        = (!(find_rule_by_key db cid e.2.system_key).isSome) := by
    intro e he
    have hv := mem_catalog_key_valid catalog hvalid e.2 (enum_snd_mem catalog e he)
    rw [cleanup_find_isSome db cid _ _ hv.1 hv.2]
  rw [List.filter_congr hcong]
  exact enum_filter_map catalog
    (fun c => !(find_rule_by_key db cid c.system_key).isSome) (fun c => c.title)

theorem sync_second_run_empty (db : Db) (cid : Int) (catalog : List SystemRuleC)
    (now1 now2 : Int) (hids : RuleIdsOk db) (hvalid : ValidCatalog catalog) :
    (sync_system_rules_for_chat (sync_system_rules_for_chat db cid catalog now1).1
        cid catalog now2).2.added = []
    ∧ (sync_system_rules_for_chat (sync_system_rules_for_chat db cid catalog now1).1
        cid catalog now2).2.removed = [] := by
  by_cases hne : catalog = []
  · subst hne
    exact ⟨rfl, rfl⟩
  · have hconf := configured_ne_nil catalog hvalid hne
    have hids1 := sync_preserves_ids db cid catalog now1 hids
    have hgood1 := sync_good db cid catalog now1 hids hvalid hne
    constructor
    · conv_lhs => rw [sync_result_decompose]
      apply sync_apply_added_nil
      intro e he
      have hv := mem_catalog_key_valid catalog hvalid e.2 (enum_snd_mem catalog e he)
      rw [cleanup_find_isSome _ cid _ _ hv.1 hv.2]
      exact sync_key_exists_catalog db cid catalog now1 e.2 (enum_snd_mem catalog e he)
    · conv_lhs => rw [sync_result_decompose]
      rw [cleanup_removed _ cid _ hconf]
      have hnil : (sync_system_rules_for_chat db cid catalog now1).1.rules.filter
          (fun r => stalePred cid (configured_of catalog) r && !(orphanPred cid r)) = [] := by
        rw [List.filter_eq_nil_iff]
        intro r hr
        have hks := good_implies_no_keyedStale _ cid (configured_of catalog) hgood1 r hr
        rw [keyedStale_eq cid (configured_of catalog) r] at *
        simp [hks]
      rw [hnil]
      rfl

/-! ## Claim C3: cleanup postcondition of one sync pass -/

/-- C3 counterexample: with an empty catalog the cleanup is skipped entirely —
the stale system rule (key "zz", outside the empty key set) survives the pass
and nothing is reported as removed. -/
theorem sync_empty_catalog_counterexample :
    (sync_system_rules_for_chat exDbC3 1 [] 0).1 = exDbC3
    ∧ (∃ r ∈ (sync_system_rules_for_chat exDbC3 1 [] 0).1.rules,
        r.chat_id = 1 ∧ r.is_system = 1 ∧ r.system_key = some "zz")
    ∧ (sync_system_rules_for_chat exDbC3 1 [] 0).2.removed = [] := by
  refine ⟨rfl, ?_, rfl⟩
  decide

/-- C3 amended: for every chat and every non-empty loader-valid catalog, after
one call of sync_system_rules_for_chat no rule of the chat has is_system = 1
with a null or blank system_key, none has a key outside the configured key
set, and the removed list is exactly the display titles (stripped, blank
falling back to the placeholder) of the chat's keyed stale system rules. -/
theorem sync_cleanup_postcondition :
    ∀ (db : Db) (cid : Int) (catalog : List SystemRuleC) (now0 : Int),
      RuleIdsOk db → ValidCatalog catalog → catalog ≠ [] →
      ((∀ r ∈ (sync_system_rules_for_chat db cid catalog now0).1.rules,
          r.chat_id = cid → r.is_system = 1 →
          ∃ k, r.system_key = some k ∧ py_strip k ≠ "" ∧ k ∈ configured_of catalog)
       ∧ (sync_system_rules_for_chat db cid catalog now0).2.removed
           = (db.rules.filter (keyedStale cid (configured_of catalog))).map
               (fun r => display_title r.title)) := by
  intro db cid catalog now0 hids hvalid hne
  constructor
  · exact sync_good db cid catalog now0 hids hvalid hne
  · conv_lhs => rw [sync_result_decompose]
    rw [cleanup_removed db cid _ (configured_ne_nil catalog hvalid hne)]
    rw [List.filter_congr (fun r _ => keyedStale_eq cid (configured_of catalog) r)]

/-- Witness for the amended C3: the stale rule "zz" is removed and reported
when the catalog holds exactly the key "k". -/
theorem sync_cleanup_postcondition_witness :
    RuleIdsOk exDbC3 ∧ ValidCatalog [mkEntry "k" "T"] ∧ [mkEntry "k" "T"] ≠ []
    ∧ ((∀ r ∈ (sync_system_rules_for_chat exDbC3 1 [mkEntry "k" "T"] 0).1.rules,
          r.chat_id = 1 → r.is_system = 1 →
          ∃ k, r.system_key = some k ∧ py_strip k ≠ "" ∧ k ∈ configured_of [mkEntry "k" "T"])
       ∧ (sync_system_rules_for_chat exDbC3 1 [mkEntry "k" "T"] 0).2.removed
           = (exDbC3.rules.filter (keyedStale 1 (configured_of [mkEntry "k" "T"]))).map
               (fun r => display_title r.title)) := by
  have hv : ValidCatalog [mkEntry "k" "T"] := by
    intro e he
    simp only [List.mem_singleton] at he
    subst he
    exact ⟨by decide, by decide⟩
  refine ⟨⟨by decide, by decide⟩, hv, by decide, ?_⟩
  exact sync_cleanup_postcondition exDbC3 1 [mkEntry "k" "T"] 0
    ⟨by decide, by decide⟩ hv (by decide)

/-! ## Claim C5: reconciliation idempotence and the added list -/

/-- C5 counterexample: a catalog with two entries sharing key "a" on a fresh
chat — no rule with (1, "a") existed before the run, yet the second entry's
title "T2" does not appear in added (only the first entry creates the rule). -/
theorem sync_added_duplicate_key_counterexample :
    find_rule_by_key exDbC5 1 "a" = none
    ∧ (sync_system_rules_for_chat exDbC5 1 [mkEntry "a" "T1", mkEntry "a" "T2"] 0).2.added
        = ["T1"]
    ∧ ¬("T2" ∈ (sync_system_rules_for_chat exDbC5 1
        [mkEntry "a" "T1", mkEntry "a" "T2"] 0).2.added) := by
  refine ⟨rfl, ?_, ?_⟩ <;> decide

/-- C5 amended: sync_system_rules_for_chat is idempotent — a second run with
the same loader-valid catalog yields an empty SyncResult — and, for a catalog
with pairwise-distinct keys, the added list of a run is exactly the titles, in
catalog order, of the entries whose (chat_id, system_key) had no rule before
that run. -/
theorem sync_idempotent_and_added_exact :
    ∀ (db : Db) (cid : Int) (catalog : List SystemRuleC) (now1 now2 : Int),
      (RuleIdsOk db → ValidCatalog catalog →
        (sync_system_rules_for_chat (sync_system_rules_for_chat db cid catalog now1).1
            cid catalog now2).2.added = []
        ∧ (sync_system_rules_for_chat (sync_system_rules_for_chat db cid catalog now1).1
            cid catalog now2).2.removed = [])
      ∧ (ValidCatalog catalog → (catalog.map (fun e => e.system_key)).Nodup →
          (sync_system_rules_for_chat db cid catalog now1).2.added
            = (catalog.filter
                (fun e => !(find_rule_by_key db cid e.system_key).isSome)).map
                (fun e => e.title)) := by
  intro db cid catalog now1 now2
  constructor
  · intro hids hvalid
    exact sync_second_run_empty db cid catalog now1 now2 hids hvalid
  · intro hvalid hnd
    exact sync_added_chars db cid catalog now1 hvalid hnd

/-- Witness for the amended C5 on a fresh chat and a one-entry catalog. -/
theorem sync_idempotent_and_added_exact_witness :
    RuleIdsOk exDbC5 ∧ ValidCatalog [mkEntry "k" "T"]
    ∧ ([mkEntry "k" "T"].map (fun e => e.system_key)).Nodup
    ∧ ((sync_system_rules_for_chat (sync_system_rules_for_chat exDbC5 1
          [mkEntry "k" "T"] 0).1 1 [mkEntry "k" "T"] 7).2.added = []
       ∧ (sync_system_rules_for_chat (sync_system_rules_for_chat exDbC5 1
          [mkEntry "k" "T"] 0).1 1 [mkEntry "k" "T"] 7).2.removed = [])
    ∧ (sync_system_rules_for_chat exDbC5 1 [mkEntry "k" "T"] 0).2.added
        = ([mkEntry "k" "T"].filter
            (fun e => !(find_rule_by_key exDbC5 1 e.system_key).isSome)).map
            (fun e => e.title) := by
  have hv : ValidCatalog [mkEntry "k" "T"] := by
    intro e he
    simp only [List.mem_singleton] at he
    subst he
    exact ⟨by decide, by decide⟩
  refine ⟨⟨by decide, by decide⟩, hv, by decide, ?_, ?_⟩
  · exact (sync_idempotent_and_added_exact exDbC5 1 [mkEntry "k" "T"] 0 7).1
      ⟨by decide, by decide⟩ hv
  · exact (sync_idempotent_and_added_exact exDbC5 1 [mkEntry "k" "T"] 0 7).2
      hv (by decide)

end CatBot
